import Mathlib

/-!
# HomeVPN core engine: a shallow embedding of `HomeVPNCore`

The engine of `src/HomeVPNCore.cpp` is embedded as pure functions over an
explicit engine state.  Everything the engine asks of its environment (the wall
clock, `popen`, the `mountpoint` check, the HTTP probe, `$HOME`, whether a file
can be opened for writing) is answered by a `World`, indexed by a counter of
environment interactions, so that a theorem quantified over every `World`
covers every sequence of outcomes.  The engine also records an observable
trace (locks taken, commands run, probes issued, messages handed to `addLog`,
callbacks invoked).

`std::string` is modelled as `List Char`, `int` as `Int` restricted to the
32-bit range wherever the source produces one (`std::stoi`).
-/

namespace HomeVPN

/-- A `std::string`. -/
abbrev Str := List Char

/-! ## Data model (`HomeVPNCore.h`) -/

/-- `HomeVPNCore::Config`, with the defaults of the header. -/
structure Config where
  vpn_connect_cmd : Str := "echo 'VPN Connect'".toList
  vpn_disconnect_cmd : Str := "echo 'VPN Disconnect'".toList
  mount_cmd : Str := "echo 'Mount'".toList
  unmount_cmd : Str := "echo 'Unmount'".toList
  check_ip_url : Str := "https://ipinfo.io/ip".toList
  expected_ip : Str := []
  home_ip_prefix : Str := "192.168.1.".toList
  status_check_interval : Int := 30
  deriving DecidableEq, Repr

/-- `HomeVPNCore::Status`, with the defaults of the header. -/
structure Status where
  vpn_connected : Bool := false
  share_mounted : Bool := false
  current_ip : Str := []
  last_error : Str := []
  deriving DecidableEq, Repr

/-- The two mutexes of the engine. -/
inductive Mutex where
  | status_mutex_
  | logs_mutex_
  deriving DecidableEq, Repr

/-- Observable actions of the engine, in the order they are performed. -/
inductive Event where
  /-- A `std::lock_guard` takes the mutex. -/
  | lock (m : Mutex)
  /-- The `std::lock_guard` goes out of scope. -/
  | unlock (m : Mutex)
  /-- `executeCommand(command)` calls `popen`. -/
  | exec (command : Str)
  /-- `getExternalIP` performs the HTTP GET. -/
  | httpGet (url : Str)
  /-- `checkShareMount` runs the `mountpoint` check. -/
  | mountCheck
  /-- The thread sleeps for that many seconds. -/
  | sleep (seconds : Nat)
  /-- `addLog(message)` is called. -/
  | addLog (message : Str)
  /-- `log_callback_` is invoked with the time-stamped entry. -/
  | logCallback (msg : Str)
  /-- `status_callback_` is invoked with the status. -/
  | statusCallback (s : Status)
  deriving DecidableEq, Repr

/-- The environment of the engine.  The first argument of each oracle is the
number of environment interactions performed so far. -/
structure World where
  /-- What `getCurrentTimestamp()` returns (`HH:MM:SS`). -/
  clock : Nat → Str
  /-- The outcome of the HTTP GET: `some body` when `curl_easy_perform` returns
  `CURLE_OK`, `none` otherwise (also when `curl_easy_init` fails). -/
  http : Nat → Str → Option Str
  /-- The outcome of `popen(command + " 2>&1")`: `none` when the pipe cannot
  be opened, otherwise everything read from it. -/
  popen : Nat → Str → Option Str
  /-- Whether `system("mountpoint -q /mnt/homeshare 2>/dev/null")` returns 0. -/
  mountpoint : Nat → Bool
  /-- The value of `getenv("HOME")`. -/
  home : Option Str
  /-- Whether a path can be opened for writing. -/
  writable : Str → Bool

/-- The members of `HomeVPNCore`, the files it reads and writes, and the
instrumentation (`tick`, `trace`). -/
structure Core where
  config_ : Config := {}
  status_ : Status := {}
  logs_ : List Str := []
  /-- Whether `status_callback_` holds a target. -/
  status_callback_ : Bool := false
  /-- Whether `log_callback_` holds a target. -/
  log_callback_ : Bool := false
  /-- The content of each file that can be opened for reading. -/
  files : Str → Option Str := fun _ => none
  /-- Number of environment interactions so far. -/
  tick : Nat := 0
  /-- The actions performed so far, oldest first. -/
  trace : List Event := []

/-- Record an observable action. -/
def emit (e : Event) (s : Core) : Core :=
  { s with trace := s.trace ++ [e] }

/-! ## Logging -/

/-- `HomeVPNCore::getCurrentTimestamp`: reads the clock. -/
def getCurrentTimestamp (w : World) (s : Core) : Str × Core :=
  (w.clock s.tick, { s with tick := s.tick + 1 })

/-- `HomeVPNCore::addLog`. -/
def addLog (w : World) (message : Str) (s : Core) : Core :=
  let s := emit (.addLog message) s
  let s := emit (.lock .logs_mutex_) s
  let (ts, s) := getCurrentTimestamp w s
  let timestamped_msg := ts ++ ": ".toList ++ message
  let s := { s with logs_ := s.logs_ ++ [timestamped_msg] }
  -- Keep only last 100 log entries
  let s := if s.logs_.length > 100 then { s with logs_ := s.logs_.tail } else s
  let s := if s.log_callback_ then emit (.logCallback timestamped_msg) s else s
  emit (.unlock .logs_mutex_) s

/-- `HomeVPNCore::clearLogs`. -/
def clearLogs (s : Core) : Core :=
  let s := emit (.lock .logs_mutex_) s
  let s := { s with logs_ := [] }
  emit (.unlock .logs_mutex_) s

/-- `HomeVPNCore::setStatusCallback` with a non-empty callback. -/
def setStatusCallback (s : Core) : Core :=
  { s with status_callback_ := true }

/-- `HomeVPNCore::setLogCallback` with a non-empty callback. -/
def setLogCallback (s : Core) : Core :=
  { s with log_callback_ := true }

/-! ## String helpers (`std::string`, `std::getline`, `std::stoi`, `operator<<`) -/

/-- `std::string::find(char)`: the first position of `c`, `none` for `npos`. -/
def find_char (c : Char) : Str → Option Nat
  | [] => none
  | x :: xs => if x = c then some 0 else (find_char c xs).map (· + 1)

/-- `std::string::find(const std::string&)`: the first position at which `pat`
occurs, `none` for `npos`. -/
def find_str (pat : Str) : Str → Option Nat
  | [] => if pat.isEmpty then some 0 else none
  | x :: xs =>
    if pat.isPrefixOf (x :: xs) then some 0 else (find_str pat xs).map (· + 1)

/-- `std::string::substr(pos, n)`. -/
def substr (s : Str) (pos n : Nat) : Str :=
  (s.drop pos).take n

/-- `response.erase(response.find_last_not_of(" \n\r\t") + 1)`: everything up to
the last character that is not a blank; nothing when there is none (`npos + 1`
wraps to 0). -/
def erase_trailing_blanks (response : Str) : Str :=
  (response.reverse.dropWhile (fun c => c = ' ' || c = '\n' || c = '\r' || c = '\t')).reverse

/-- The lines `while (std::getline(file, line))` iterates over: split at
each newline; a last line without a newline counts when it is non-empty. -/
def getlines : Str → List Str
  | [] => []
  | c :: cs =>
    if c = '\n' then [] :: getlines cs
    else
      match getlines cs with
      | [] => [[c]]
      | l :: ls => (c :: l) :: ls

/-- `isspace` in the C locale. -/
def isspace (c : Char) : Bool :=
  c = ' ' || c = '\t' || c = '\n' || c = '\x0b' || c = '\x0c' || c = '\r'

/-- `isdigit`. -/
def isdigit (c : Char) : Bool :=
  decide (48 ≤ c.toNat) && decide (c.toNat ≤ 57)

/-- `INT_MAX` of a 32-bit `int`. -/
def INT_MAX : Int := 2147483647

/-- `INT_MIN` of a 32-bit `int`. -/
def INT_MIN : Int := -2147483648

/-- The value of a run of decimal digits. -/
def digitsValue (ds : Str) : Nat :=
  ds.foldl (fun acc c => acc * 10 + (c.toNat - 48)) 0

/-- `std::stoi(str)` (base 10): skips leading white space, reads an optional
sign and the longest run of digits, ignores what follows.  `none` stands for an
exception: `std::invalid_argument` when there is no digit, `std::out_of_range`
when the value does not fit an `int`. -/
def stoi (str : Str) : Option Int :=
  let s := str.dropWhile isspace
  let (neg, s) :=
    match s with
    | '-' :: r => (true, r)
    | '+' :: r => (false, r)
    | _ => (false, s)
  let ds := s.takeWhile isdigit
  if ds.isEmpty then none
  else
    let n : Int := digitsValue ds
    let v := if neg then -n else n
    if v < INT_MIN ∨ INT_MAX < v then none else some v

/-- The character of a decimal digit. -/
def digitChar (d : Nat) : Char :=
  match d with
  | 0 => '0' | 1 => '1' | 2 => '2' | 3 => '3' | 4 => '4'
  | 5 => '5' | 6 => '6' | 7 => '7' | 8 => '8' | _ => '9'

/-- The decimal digits of `n`, least significant first (`fuel` bounds the
number of digits). -/
def digitsRev : Nat → Nat → Str
  | 0, _ => []
  | fuel + 1, n => digitChar (n % 10) :: (if n / 10 = 0 then [] else digitsRev fuel (n / 10))

/-- The decimal numeral of a natural number. -/
def decimal (n : Nat) : Str :=
  (digitsRev (n + 1) n).reverse

/-- What `file << i` writes for an `int`. -/
def ostream_int (i : Int) : Str :=
  if i < 0 then '-' :: decimal i.natAbs else decimal i.natAbs

/-! ## Environment access -/

/-- `HomeVPNCore::executeCommand`. -/
def executeCommand (w : World) (command : Str) (s : Core) : Str × Core :=
  let s := emit (.exec command) s
  let pipe := w.popen s.tick (command ++ " 2>&1".toList)
  let s := { s with tick := s.tick + 1 }
  match pipe with
  | none =>
    ("Error: Failed to execute command".toList,
      addLog w ("ERROR: Failed to execute command: ".toList ++ command) s)
  | some result =>
    -- Remove trailing newline
    let result :=
      if !result.isEmpty && result.getLast? = some '\n' then result.dropLast else result
    let s := if !result.isEmpty then addLog w ("Command output: ".toList ++ result) s else s
    (result, s)

/-- `HomeVPNCore::getExternalIP`. -/
def getExternalIP (w : World) (s : Core) : Str × Core :=
  if s.config_.check_ip_url.isEmpty then ([], s)
  else
    let s := emit (.httpGet s.config_.check_ip_url) s
    let res := w.http s.tick s.config_.check_ip_url
    let s := { s with tick := s.tick + 1 }
    match res with
    | some response =>
      (if !response.isEmpty then erase_trailing_blanks response else response, s)
    | none => ([], s)

/-- `HomeVPNCore::checkVPNConnection`. -/
def checkVPNConnection (s : Core) : Bool :=
  if !s.config_.expected_ip.isEmpty then
    (find_str s.config_.expected_ip s.status_.current_ip).isSome
  else if !s.config_.home_ip_prefix.isEmpty then
    (find_str s.config_.home_ip_prefix s.status_.current_ip).isSome
  else
    -- Fallback: assume connected if we can get an IP
    !s.status_.current_ip.isEmpty && decide (s.status_.current_ip ≠ "Error".toList)
      && decide (s.status_.current_ip.length > 5)

/-- `HomeVPNCore::checkShareMount`. -/
def checkShareMount (w : World) (s : Core) : Bool × Core :=
  let s := emit .mountCheck s
  (w.mountpoint s.tick, { s with tick := s.tick + 1 })

/-- `HomeVPNCore::notifyStatusChange`. -/
def notifyStatusChange (s : Core) : Core :=
  if s.status_callback_ then emit (.statusCallback s.status_) s else s

/-- `std::this_thread::sleep_for(std::chrono::seconds(n))`. -/
def sleep_for (seconds : Nat) (s : Core) : Core :=
  emit (.sleep seconds) s

/-! ## Core operations -/

/-- `HomeVPNCore::updateStatus`. -/
def updateStatus (w : World) (s : Core) : Core :=
  let s := emit (.lock .status_mutex_) s
  let old_status := s.status_
  -- Check VPN connection
  let (ip, s) := getExternalIP w s
  let s := { s with status_ := { s.status_ with current_ip := ip } }
  let s := { s with status_ := { s.status_ with vpn_connected := checkVPNConnection s } }
  -- Check share mount
  let (mounted, s) := checkShareMount w s
  let s := { s with status_ := { s.status_ with share_mounted := mounted } }
  -- If VPN disconnected, disable mount
  let s :=
    if !s.status_.vpn_connected && s.status_.share_mounted then
      let (_, s) := executeCommand w s.config_.unmount_cmd s
      let s := { s with status_ := { s.status_ with share_mounted := false } }
      addLog w "VPN disconnected, unmounting share".toList s
    else s
  -- Clear error if status improved
  let s :=
    if s.status_.vpn_connected && !old_status.vpn_connected then
      { s with status_ := { s.status_ with last_error := [] } }
    else s
  -- Log status changes
  let s :=
    if old_status.vpn_connected != s.status_.vpn_connected then
      addLog w (if s.status_.vpn_connected then "VPN Connected".toList
        else "VPN Disconnected".toList) s
    else s
  let s :=
    if old_status.share_mounted != s.status_.share_mounted then
      addLog w (if s.status_.share_mounted then "Share Mounted".toList
        else "Share Unmounted".toList) s
    else s
  let s := notifyStatusChange s
  emit (.unlock .status_mutex_) s

/-- `HomeVPNCore::connectVPN`. -/
def connectVPN (w : World) (s : Core) : Core :=
  let s := addLog w "Connecting to VPN...".toList s
  let (_, s) := executeCommand w s.config_.vpn_connect_cmd s
  let s := sleep_for 2 s
  updateStatus w s

/-- `HomeVPNCore::disconnectVPN`. -/
def disconnectVPN (w : World) (s : Core) : Core :=
  let s := addLog w "Disconnecting from VPN...".toList s
  let (_, s) := executeCommand w s.config_.vpn_disconnect_cmd s
  let s := sleep_for 1 s
  updateStatus w s

/-- `HomeVPNCore::mountShare`. -/
def mountShare (w : World) (s : Core) : Core :=
  if !s.status_.vpn_connected then
    let s := addLog w "ERROR: Cannot mount share - VPN not connected".toList s
    let s := { s with status_ := { s.status_ with last_error := "VPN not connected".toList } }
    notifyStatusChange s
  else
    let s := addLog w "Mounting network share...".toList s
    let (_, s) := executeCommand w s.config_.mount_cmd s
    let s := sleep_for 1 s
    updateStatus w s

/-- `HomeVPNCore::unmountShare`. -/
def unmountShare (w : World) (s : Core) : Core :=
  let s := addLog w "Unmounting network share...".toList s
  let (_, s) := executeCommand w s.config_.unmount_cmd s
  let s := sleep_for 1 s
  updateStatus w s

/-! ## Configuration file -/

/-- The path `loadConfig` and `saveConfig` use: the argument, or
`$HOME/.homeVPN` when the argument is empty; `none` when `HOME` is not set. -/
def resolvePath (w : World) (config_path : Str) : Option Str :=
  if config_path.isEmpty then
    match w.home with
    | none => none
    | some home => some (home ++ "/.homeVPN".toList)
  else some config_path

/-- The removal of surrounding quotes in `loadConfig`. -/
def stripQuotes (value : Str) : Str :=
  if value.length ≥ 2 && value.head? = some '"' && value.getLast? = some '"' then
    substr value 1 (value.length - 2)
  else value

/-- The body of the `while (std::getline(file, line))` loop of `loadConfig`. -/
def processLine (w : World) (line : Str) (s : Core) : Core :=
  if line.isEmpty || line.head? = some '#' then s
  else
    match find_char '=' line with
    | none => s
    | some equals =>
      let key := substr line 0 equals
      let value := line.drop (equals + 1)
      -- Remove quotes if present
      let value := stripQuotes value
      -- Set configuration values
      if key = "vpn_connect_cmd".toList || key = "vpn_connect".toList then
        { s with config_ := { s.config_ with vpn_connect_cmd := value } }
      else if key = "vpn_disconnect_cmd".toList || key = "vpn_disconnect".toList then
        { s with config_ := { s.config_ with vpn_disconnect_cmd := value } }
      else if key = "mount_cmd".toList then
        { s with config_ := { s.config_ with mount_cmd := value } }
      else if key = "unmount_cmd".toList then
        { s with config_ := { s.config_ with unmount_cmd := value } }
      else if key = "check_ip_url".toList then
        { s with config_ := { s.config_ with check_ip_url := value } }
      else if key = "expected_ip".toList then
        { s with config_ := { s.config_ with expected_ip := value } }
      else if key = "home_ip".toList || key = "home_ip_prefix".toList then
        { s with config_ := { s.config_ with home_ip_prefix := value } }
      else if key = "status_check_interval".toList then
        match stoi value with
        | some i => { s with config_ := { s.config_ with status_check_interval := i } }
        | none => addLog w ("Invalid status_check_interval value: ".toList ++ value) s
      else s

/-- The `while` loop of `loadConfig` over the lines of the file. -/
def processLines (w : World) (lines : List Str) (s : Core) : Core :=
  lines.foldl (fun s line => processLine w line s) s

/-- `HomeVPNCore::loadConfig`. -/
def loadConfig (w : World) (config_path : Str) (s : Core) : Bool × Core :=
  match resolvePath w config_path with
  | none => (false, s)
  | some path =>
    match s.files path with
    | none => (false, addLog w ("Config file not found, using defaults: ".toList ++ path) s)
    | some content =>
      let s := processLines w (getlines content) s
      (true, addLog w ("Configuration loaded from: ".toList ++ path) s)

/-- What `saveConfig` writes to the file. -/
def configText (c : Config) : Str :=
  "# HomeVPN Configuration\n".toList
    ++ "vpn_connect_cmd=".toList ++ c.vpn_connect_cmd ++ "\n".toList
    ++ "vpn_disconnect_cmd=".toList ++ c.vpn_disconnect_cmd ++ "\n".toList
    ++ "mount_cmd=".toList ++ c.mount_cmd ++ "\n".toList
    ++ "unmount_cmd=".toList ++ c.unmount_cmd ++ "\n".toList
    ++ "check_ip_url=".toList ++ c.check_ip_url ++ "\n".toList
    ++ "expected_ip=".toList ++ c.expected_ip ++ "\n".toList
    ++ "home_ip_prefix=".toList ++ c.home_ip_prefix ++ "\n".toList
    ++ "status_check_interval=".toList ++ ostream_int c.status_check_interval ++ "\n".toList

/-- `HomeVPNCore::saveConfig`. -/
def saveConfig (w : World) (config_path : Str) (s : Core) : Core :=
  match resolvePath w config_path with
  | none => s
  | some path =>
    if !w.writable path then addLog w ("Failed to save config to: ".toList ++ path) s
    else
      let s := { s with files := fun p => if p = path then some (configText s.config_) else s.files p }
      addLog w ("Configuration saved to: ".toList ++ path) s

/-- `HomeVPNCore::setConfig`. -/
def setConfig (config : Config) (s : Core) : Core :=
  { s with config_ := config }

/-! ## Sequences of operations -/

/-- The operations a presentation layer performs on the engine. -/
inductive Op where
  | connectVPN
  | disconnectVPN
  | mountShare
  | unmountShare
  | updateStatus
  deriving DecidableEq, Repr

/-- Perform one operation. -/
def Op.run (w : World) : Op → Core → Core
  | .connectVPN => HomeVPN.connectVPN w
  | .disconnectVPN => HomeVPN.disconnectVPN w
  | .mountShare => HomeVPN.mountShare w
  | .unmountShare => HomeVPN.unmountShare w
  | .updateStatus => HomeVPN.updateStatus w

/-- Perform a sequence of operations, first to last. -/
def runOps (w : World) (ops : List Op) (s : Core) : Core :=
  ops.foldl (fun s op => op.run w s) s

/-- The engine as constructed: default configuration, all-false status, empty
log, no callback. -/
def initial : Core := {}

/-- A world for examples: the clock shows `12:00:00`, the probe answers
`192.168.1.42`, commands print nothing, the share is mounted, every path is
writable. -/
def demoWorld : World where
  clock := fun _ => "12:00:00".toList
  http := fun _ _ => some "192.168.1.42\n".toList
  popen := fun _ _ => some []
  mountpoint := fun _ => true
  home := some "/home/u".toList
  writable := fun _ => true

/-! ## Vocabulary of the properties -/

/-- The rule of the specification for deriving `vpn_connected` from the probed
address: a substring match against `expected_ip` when it is set, else a
substring match against `home_ip_prefix` when it is set, else the address is
non-empty and longer than 5 characters. -/
def referenceRule (c : Config) (ip : Str) : Bool :=
  if c.expected_ip ≠ [] then decide (c.expected_ip <:+: ip)
  else if c.home_ip_prefix ≠ [] then decide (c.home_ip_prefix <:+: ip)
  else decide (ip ≠ [] ∧ ip.length > 5)

/-- The consistency invariant of a `Status`: a mounted share implies a
connected VPN. -/
def Status.consistent (st : Status) : Prop :=
  st.share_mounted = true → st.vpn_connected = true

/-- The address `updateStatus` obtains from the probe. -/
def probedIP (w : World) (s : Core) : Str :=
  (getExternalIP w (emit (.lock .status_mutex_) s)).1

/-- The answer `updateStatus` obtains from the mount check. -/
def mountReport (w : World) (s : Core) : Bool :=
  w.mountpoint (getExternalIP w (emit (.lock .status_mutex_) s)).2.tick

/-- The value of `vpn_connected` that `updateStatus` derives: what
`checkVPNConnection` returns once `current_ip` holds the probed address. -/
def derivedVPN (w : World) (s : Core) : Bool :=
  checkVPNConnection { s with status_ := { s.status_ with current_ip := probedIP w s } }

/-- The command of an `exec` event. -/
def Event.execCmd : Event → Option Str
  | .exec c => some c
  | _ => none

/-- The URL of an `httpGet` event. -/
def Event.url : Event → Option Str
  | .httpGet u => some u
  | _ => none

/-- Whether an event is a mount check. -/
def Event.isMountCheck : Event → Bool
  | .mountCheck => true
  | _ => false

/-- The message of an `addLog` event. -/
def Event.logMsg : Event → Option Str
  | .addLog m => some m
  | _ => none

/-- The argument of an invocation of the log callback. -/
def Event.logArg : Event → Option Str
  | .logCallback m => some m
  | _ => none

/-- The argument of an invocation of the status callback. -/
def Event.statusArg : Event → Option Status
  | .statusCallback st => some st
  | _ => none

/-- The commands run so far, oldest first. -/
def execs (s : Core) : List Str :=
  s.trace.filterMap Event.execCmd

/-- The URLs probed so far, oldest first. -/
def httpGets (s : Core) : List Str :=
  s.trace.filterMap Event.url

/-- The number of mount checks so far. -/
def mountChecks (s : Core) : Nat :=
  s.trace.countP Event.isMountCheck

/-- The messages handed to `addLog` so far, oldest first. -/
def logged (s : Core) : List Str :=
  s.trace.filterMap Event.logMsg

/-- The arguments of the invocations of the log callback so far. -/
def logCalls (s : Core) : List Str :=
  s.trace.filterMap Event.logArg

/-- The arguments of the invocations of the status callback so far. -/
def statusCalls (s : Core) : List Status :=
  s.trace.filterMap Event.statusArg

/-- The log entry `addLog` makes of a message at a given time stamp. -/
def logEntry (timestamp message : Str) : Str :=
  timestamp ++ ": ".toList ++ message

/-- The messages `executeCommand` hands to `addLog` when it runs `command` at
interaction number `tick`. -/
def commandLog (w : World) (command : Str) (tick : Nat) : List Str :=
  match w.popen tick (command ++ " 2>&1".toList) with
  | none => ["ERROR: Failed to execute command: ".toList ++ command]
  | some result =>
    if (if !result.isEmpty && result.getLast? = some '\n' then result.dropLast
        else result).isEmpty then []
    else ["Command output: ".toList ++
      (if !result.isEmpty && result.getLast? = some '\n' then result.dropLast else result)]

/-- The events of one `addLog` call made at interaction number `tick`, `cb`
telling whether a log callback is registered. -/
def addLogEvents (w : World) (message : Str) (tick : Nat) (cb : Bool) : List Event :=
  [.addLog message, .lock .logs_mutex_]
    ++ (if cb then [.logCallback (logEntry (w.clock tick) message)] else [])
    ++ [.unlock .logs_mutex_]

/-- The events of one `executeCommand` call made at interaction number `tick`. -/
def commandEvents (w : World) (command : Str) (tick : Nat) (cb : Bool) : List Event :=
  .exec command ::
    match commandLog w command tick with
    | [] => []
    | m :: _ => addLogEvents w m (tick + 1) cb

/-- The messages `executeCommand` hands to `addLog` when `updateStatus` runs
the unmount command, which it does right after the mount check. -/
def correctionCommandLog (w : World) (s : Core) : List Str :=
  commandLog w s.config_.unmount_cmd
    ((getExternalIP w (emit (.lock .status_mutex_) s)).2.tick + 1)

/-- A world in which the probe fails while the share is mounted. -/
def offlineWorld : World where
  clock := fun _ => "12:00:00".toList
  http := fun _ _ => none
  popen := fun _ _ => some []
  mountpoint := fun _ => true
  home := some "/home/u".toList
  writable := fun _ => true

/-- An engine whose status shows a connected VPN and a mounted share. -/
def connectedMounted : Core :=
  { status_ := { vpn_connected := true, share_mounted := true } }

/-- The keys `loadConfig` recognises. -/
def recognisedKeys : List Str :=
  [ "vpn_connect_cmd".toList, "vpn_connect".toList, "vpn_disconnect_cmd".toList,
    "vpn_disconnect".toList, "mount_cmd".toList, "unmount_cmd".toList,
    "check_ip_url".toList, "expected_ip".toList, "home_ip".toList,
    "home_ip_prefix".toList, "status_check_interval".toList ]

/-- The key of a line: its text before the first `=`. -/
def lineKey (line : Str) : Str :=
  line.takeWhile (fun c => c != '=')

/-- A line that is empty, starts with `#`, contains no `=`, or whose key is not
recognised. -/
def ignorable (line : Str) : Prop :=
  line = [] ∨ line.head? = some '#' ∨ '=' ∉ line ∨ lineKey line ∉ recognisedKeys

instance (line : Str) : Decidable (ignorable line) := by
  unfold ignorable
  infer_instance

/-- The file made of the given lines, each ended by a newline. -/
def unlines : List Str → Str
  | [] => []
  | l :: ls => l ++ '\n' :: unlines ls

/-- The engine with one more readable file. -/
def withFile (path content : Str) (s : Core) : Core :=
  { s with files := fun p => if p = path then some content else s.files p }

/-- A well-formed decimal integer: an optional sign, then digits only, at least
one. -/
def wellFormedInteger (v : Str) : Bool :=
  match v with
  | '-' :: ds => !ds.isEmpty && ds.all isdigit
  | '+' :: ds => !ds.isEmpty && ds.all isdigit
  | ds => !ds.isEmpty && ds.all isdigit

/-- No string field of the configuration contains a newline. -/
def noNewline (c : Config) : Prop :=
  '\n' ∉ c.vpn_connect_cmd ∧ '\n' ∉ c.vpn_disconnect_cmd ∧ '\n' ∉ c.mount_cmd ∧
  '\n' ∉ c.unmount_cmd ∧ '\n' ∉ c.check_ip_url ∧ '\n' ∉ c.expected_ip ∧
  '\n' ∉ c.home_ip_prefix

instance (c : Config) : Decidable (noNewline c) := by
  unfold noNewline
  infer_instance

/-- The configuration with one pair of surrounding double quotes removed from
each string field that has one. -/
def unquoted (c : Config) : Config :=
  { vpn_connect_cmd := stripQuotes c.vpn_connect_cmd
    vpn_disconnect_cmd := stripQuotes c.vpn_disconnect_cmd
    mount_cmd := stripQuotes c.mount_cmd
    unmount_cmd := stripQuotes c.unmount_cmd
    check_ip_url := stripQuotes c.check_ip_url
    expected_ip := stripQuotes c.expected_ip
    home_ip_prefix := stripQuotes c.home_ip_prefix
    status_check_interval := c.status_check_interval }

/-- A configuration whose `mount_cmd` spans two lines. -/
def newlineConfig : Config :=
  { mount_cmd := "a\nb".toList }

/-- Operations on the log alone. -/
inductive LogOp where
  | addLog (message : Str)
  | clearLogs
  deriving DecidableEq, Repr

/-- Perform one log operation. -/
def LogOp.run (w : World) : LogOp → Core → Core
  | .addLog m => HomeVPN.addLog w m
  | .clearLogs => HomeVPN.clearLogs

/-- Perform a sequence of log operations, first to last. -/
def runLogOps (w : World) (ops : List LogOp) (s : Core) : Core :=
  ops.foldl (fun s op => op.run w s) s

/-- The messages handed to `addLog` between two states of the engine. -/
def loggedBy (s s2 : Core) : List Str :=
  (logged s2).drop (logged s).length

/-- An engine whose status shows the rejection of a mount and whose
configuration has no probe URL. -/
def rejectedNoUrl : Core :=
  { config_ := { check_ip_url := [] }
    status_ := { last_error := "VPN not connected".toList } }

/-- An engine whose status shows the rejection of a mount. -/
def rejected : Core :=
  { status_ := { last_error := "VPN not connected".toList } }

/-- The string fields of the configuration. -/
inductive ConfigField where
  | vpn_connect_cmd
  | vpn_disconnect_cmd
  | mount_cmd
  | unmount_cmd
  | check_ip_url
  | expected_ip
  | home_ip_prefix
  deriving DecidableEq, Repr

/-- The value of a string field. -/
def ConfigField.get : ConfigField → Config → Str
  | .vpn_connect_cmd, c => c.vpn_connect_cmd
  | .vpn_disconnect_cmd, c => c.vpn_disconnect_cmd
  | .mount_cmd, c => c.mount_cmd
  | .unmount_cmd, c => c.unmount_cmd
  | .check_ip_url, c => c.check_ip_url
  | .expected_ip, c => c.expected_ip
  | ConfigField.home_ip_prefix, c => c.home_ip_prefix

/-- The configuration with one string field replaced. -/
def ConfigField.set : ConfigField → Str → Config → Config
  | .vpn_connect_cmd, v, c => { c with vpn_connect_cmd := v }
  | .vpn_disconnect_cmd, v, c => { c with vpn_disconnect_cmd := v }
  | .mount_cmd, v, c => { c with mount_cmd := v }
  | .unmount_cmd, v, c => { c with unmount_cmd := v }
  | .check_ip_url, v, c => { c with check_ip_url := v }
  | .expected_ip, v, c => { c with expected_ip := v }
  | ConfigField.home_ip_prefix, v, c => { c with home_ip_prefix := v }

/-- The string field a key names, as the specification lists the keys and
their aliases; `none` for any other text. -/
def keyField (key : Str) : Option ConfigField :=
  if key = "vpn_connect_cmd".toList ∨ key = "vpn_connect".toList then some .vpn_connect_cmd
  else if key = "vpn_disconnect_cmd".toList ∨ key = "vpn_disconnect".toList then
    some .vpn_disconnect_cmd
  else if key = "mount_cmd".toList then some .mount_cmd
  else if key = "unmount_cmd".toList then some .unmount_cmd
  else if key = "check_ip_url".toList then some .check_ip_url
  else if key = "expected_ip".toList then some .expected_ip
  else if key = "home_ip_prefix".toList ∨ key = "home_ip".toList then
    some ConfigField.home_ip_prefix
  else none

/-- The value of a line: everything after the first `=`. -/
def lineValue (line : Str) : Str :=
  (line.dropWhile (fun c => c != '=')).drop 1

/-- The value as the specification unquotes it: the first and the last
character removed when the value has at least two characters and both begins
and ends with a double quote, the value itself otherwise. -/
def specUnquote (v : Str) : Str :=
  if 2 ≤ v.length ∧ v.head? = some '"' ∧ v.getLast? = some '"' then v.tail.dropLast else v

@[simp] theorem emit_status (e : Event) (s : Core) : (emit e s).status_ = s.status_ := rfl
@[simp] theorem emit_config (e : Event) (s : Core) : (emit e s).config_ = s.config_ := rfl
@[simp] theorem emit_logs (e : Event) (s : Core) : (emit e s).logs_ = s.logs_ := rfl
@[simp] theorem emit_tick (e : Event) (s : Core) : (emit e s).tick = s.tick := rfl
@[simp] theorem emit_files (e : Event) (s : Core) : (emit e s).files = s.files := rfl
@[simp] theorem emit_status_callback (e : Event) (s : Core) :
    (emit e s).status_callback_ = s.status_callback_ := rfl
@[simp] theorem emit_log_callback (e : Event) (s : Core) :
    (emit e s).log_callback_ = s.log_callback_ := rfl
@[simp] theorem emit_trace (e : Event) (s : Core) : (emit e s).trace = s.trace ++ [e] := rfl

@[simp] theorem addLog_status (w : World) (m : Str) (s : Core) :
    (addLog w m s).status_ = s.status_ := by
  simp only [addLog, getCurrentTimestamp]
  split_ifs <;> rfl

@[simp] theorem addLog_config (w : World) (m : Str) (s : Core) :
    (addLog w m s).config_ = s.config_ := by
  simp only [addLog, getCurrentTimestamp]
  split_ifs <;> rfl

@[simp] theorem addLog_status_callback (w : World) (m : Str) (s : Core) :
    (addLog w m s).status_callback_ = s.status_callback_ := by
  simp only [addLog, getCurrentTimestamp]
  split_ifs <;> rfl

@[simp] theorem addLog_log_callback (w : World) (m : Str) (s : Core) :
    (addLog w m s).log_callback_ = s.log_callback_ := by
  simp only [addLog, getCurrentTimestamp]
  split_ifs <;> rfl

@[simp] theorem addLog_files (w : World) (m : Str) (s : Core) :
    (addLog w m s).files = s.files := by
  simp only [addLog, getCurrentTimestamp]
  split_ifs <;> rfl

@[simp] theorem addLog_tick (w : World) (m : Str) (s : Core) :
    (addLog w m s).tick = s.tick + 1 := by
  simp only [addLog, getCurrentTimestamp]
  split_ifs <;> rfl


@[simp] theorem executeCommand_status (w : World) (c : Str) (s : Core) :
    (executeCommand w c s).2.status_ = s.status_ := by
  unfold executeCommand
  dsimp only
  split
  · simp only [addLog_status, emit_status]
  · split_ifs <;> simp only [addLog_status, emit_status]

@[simp] theorem executeCommand_config (w : World) (c : Str) (s : Core) :
    (executeCommand w c s).2.config_ = s.config_ := by
  unfold executeCommand
  dsimp only
  split
  · simp only [addLog_config, emit_config]
  · split_ifs <;> simp only [addLog_config, emit_config]

@[simp] theorem getExternalIP_status (w : World) (s : Core) :
    (getExternalIP w s).2.status_ = s.status_ := by
  unfold getExternalIP
  split_ifs
  · rfl
  · dsimp only
    split <;> rfl

@[simp] theorem getExternalIP_config (w : World) (s : Core) :
    (getExternalIP w s).2.config_ = s.config_ := by
  unfold getExternalIP
  split_ifs
  · rfl
  · dsimp only
    split <;> rfl

@[simp] theorem notifyStatusChange_status (s : Core) :
    (notifyStatusChange s).status_ = s.status_ := by
  unfold notifyStatusChange
  split_ifs <;> rfl


theorem find_str_isSome (pat s : Str) : (find_str pat s).isSome = true ↔ pat <:+: s := by
  induction s with
  | nil =>
    cases pat <;> simp [find_str]
  | cons x xs ih =>
    unfold find_str
    by_cases hp : pat.isPrefixOf (x :: xs) = true
    · rw [if_pos hp]
      have : pat <+: x :: xs := List.isPrefixOf_iff_prefix.mp hp
      simp [this.isInfix]
    · rw [if_neg hp, Option.isSome_map', ih, List.infix_cons_iff]
      have : ¬ pat <+: x :: xs := fun h => hp (List.isPrefixOf_iff_prefix.mpr h)
      simp [this]

theorem checkVPNConnection_eq_rule (s : Core) :
    checkVPNConnection s = referenceRule s.config_ s.status_.current_ip := by
  unfold checkVPNConnection referenceRule
  by_cases h1 : s.config_.expected_ip = []
  · by_cases h2 : s.config_.home_ip_prefix = []
    · simp only [h1, h2, List.isEmpty_nil, Bool.not_true, Bool.false_eq_true, if_false,
        ne_eq, not_true_eq_false]
      by_cases h3 : s.status_.current_ip = []
      · simp [h3]
      · have : s.status_.current_ip.length > 5 → s.status_.current_ip ≠ "Error".toList := by
          intro hl he
          rw [he] at hl
          exact absurd hl (by decide)
        by_cases h4 : s.status_.current_ip.length > 5
        · have hne := this h4
          simp [h3, h4]
          exact hne
        · simp [h3, h4]
    · have e2 : s.config_.home_ip_prefix.isEmpty = false := by
        cases h : s.config_.home_ip_prefix
        · exact absurd h h2
        · rfl
      simp only [h1, e2, List.isEmpty_nil, Bool.not_true, Bool.false_eq_true, if_false,
        Bool.not_false, if_true, ne_eq, not_true_eq_false, h2, not_false_eq_true]
      rw [Bool.eq_iff_iff, find_str_isSome]
      simp
  · have e1 : s.config_.expected_ip.isEmpty = false := by
      cases h : s.config_.expected_ip
      · exact absurd h h1
      · rfl
    simp only [e1, Bool.not_false, if_true, ne_eq, h1, not_false_eq_true]
    rw [Bool.eq_iff_iff, find_str_isSome]
    simp


theorem ite_addLog_status (c : Prop) [Decidable c] (w : World) (m : Str) (s : Core) :
    (if c then addLog w m s else s).status_ = s.status_ := by
  split_ifs <;> simp only [addLog_status]

theorem updateStatus_status (w : World) (s : Core) :
    (updateStatus w s).status_ =
      { vpn_connected := derivedVPN w s
        share_mounted := derivedVPN w s && mountReport w s
        current_ip := probedIP w s
        last_error := if derivedVPN w s && !s.status_.vpn_connected then []
          else s.status_.last_error } := by
  unfold updateStatus checkShareMount derivedVPN mountReport probedIP
  simp only [emit_status, notifyStatusChange_status, ite_addLog_status,
    checkVPNConnection_eq_rule, emit_config,
    getExternalIP_config, getExternalIP_status, emit_tick]
  generalize referenceRule s.config_ (getExternalIP w (emit (.lock .status_mutex_) s)).1 = v
  generalize w.mountpoint (getExternalIP w (emit (.lock .status_mutex_) s)).2.tick = m
  cases v <;> cases m <;> cases h : s.status_.vpn_connected <;>
    simp only [Bool.not_false, Bool.not_true, Bool.and_self, Bool.and_true, Bool.and_false,
      Bool.true_and, Bool.false_and,
      Bool.false_eq_true, if_false, if_true, addLog_status, executeCommand_status]


theorem updateStatus_consistent (w : World) (s : Core) :
    (updateStatus w s).status_.consistent := by
  unfold Status.consistent
  rw [updateStatus_status]
  simp only [Bool.and_eq_true]
  exact fun h => h.1

theorem mountShare_consistent (w : World) (s : Core) (h : s.status_.consistent) :
    (mountShare w s).status_.consistent := by
  unfold mountShare
  split_ifs with hv
  · simp only [notifyStatusChange_status, addLog_status]
    exact h
  · exact updateStatus_consistent w _

theorem Op.run_consistent (w : World) (op : Op) (s : Core) (h : s.status_.consistent) :
    (op.run w s).status_.consistent := by
  cases op
  · exact updateStatus_consistent w _
  · exact updateStatus_consistent w _
  · exact mountShare_consistent w s h
  · exact updateStatus_consistent w _
  · exact updateStatus_consistent w _

theorem runOps_consistent (w : World) (ops : List Op) :
    ∀ s : Core, s.status_.consistent → (runOps w ops s).status_.consistent := by
  induction ops with
  | nil => intro s h; exact h
  | cons op ops ih =>
    intro s h
    exact ih (op.run w s) (Op.run_consistent w op s h)

/-! ## C1: a mounted share implies a connected VPN -/

/-- C1: whatever the configuration, the prior status and the outcomes of the
probe, the mount check and the commands, the status left by `updateStatus` has
`share_mounted = true` only together with `vpn_connected = true`; and from any
engine state whose two flags are false (the initial one in particular), the same
holds after every finite sequence of `connectVPN`, `disconnectVPN`,
`mountShare`, `unmountShare` and `updateStatus`. -/
theorem share_mounted_implies_vpn_connected (w : World) :
    (∀ s : Core, (updateStatus w s).status_.share_mounted = true →
        (updateStatus w s).status_.vpn_connected = true) ∧
    (∀ (s0 : Core) (ops : List Op),
        s0.status_.vpn_connected = false → s0.status_.share_mounted = false →
        (runOps w ops s0).status_.share_mounted = true →
        (runOps w ops s0).status_.vpn_connected = true) := by
  refine ⟨fun s => updateStatus_consistent w s, fun s0 ops _ hm => ?_⟩
  exact runOps_consistent w ops s0 (fun h => by rw [hm] at h; exact absurd h (by decide))



/-! ## The log -/

theorem addLog_logs (w : World) (m : Str) (s : Core) :
    (addLog w m s).logs_ =
      if 100 < (s.logs_ ++ [logEntry (w.clock s.tick) m]).length then
        (s.logs_ ++ [logEntry (w.clock s.tick) m]).tail
      else s.logs_ ++ [logEntry (w.clock s.tick) m] := by
  simp only [addLog, getCurrentTimestamp, logEntry, emit_logs, emit_tick, gt_iff_lt]
  split_ifs <;> rfl

theorem addLog_trace (w : World) (m : Str) (s : Core) :
    (addLog w m s).trace = s.trace ++ addLogEvents w m s.tick s.log_callback_ := by
  simp only [addLog, getCurrentTimestamp, logEntry, emit, gt_iff_lt, addLogEvents]
  split_ifs <;> simp

@[simp] theorem execCmd_addLogEvents (w : World) (m : Str) (t : Nat) (cb : Bool) :
    (addLogEvents w m t cb).filterMap Event.execCmd = [] := by
  cases cb <;> rfl

@[simp] theorem url_addLogEvents (w : World) (m : Str) (t : Nat) (cb : Bool) :
    (addLogEvents w m t cb).filterMap Event.url = [] := by
  cases cb <;> rfl

@[simp] theorem isMountCheck_addLogEvents (w : World) (m : Str) (t : Nat) (cb : Bool) :
    (addLogEvents w m t cb).countP Event.isMountCheck = 0 := by
  cases cb <;> rfl

@[simp] theorem logMsg_addLogEvents (w : World) (m : Str) (t : Nat) (cb : Bool) :
    (addLogEvents w m t cb).filterMap Event.logMsg = [m] := by
  cases cb <;> rfl

@[simp] theorem statusArg_addLogEvents (w : World) (m : Str) (t : Nat) (cb : Bool) :
    (addLogEvents w m t cb).filterMap Event.statusArg = [] := by
  cases cb <;> rfl

theorem logArg_addLogEvents (w : World) (m : Str) (t : Nat) (cb : Bool) :
    (addLogEvents w m t cb).filterMap Event.logArg =
      if cb then [logEntry (w.clock t) m] else [] := by
  cases cb <;> rfl

theorem addLog_logs_length_le (w : World) (m : Str) (s : Core) (h : s.logs_.length ≤ 100) :
    (addLog w m s).logs_.length ≤ 100 := by
  rw [addLog_logs]
  split_ifs with hlen
  · simp only [List.length_tail, List.length_append, List.length_singleton]
    omega
  · omega

theorem runLogOps_length_le (w : World) (ops : List LogOp) :
    ∀ s : Core, s.logs_.length ≤ 100 → (runLogOps w ops s).logs_.length ≤ 100 := by
  induction ops with
  | nil => intro s h; exact h
  | cons op ops ih =>
    intro s h
    refine ih (op.run w s) ?_
    cases op with
    | addLog m => exact addLog_logs_length_le w m s h
    | clearLogs => simp [LogOp.run, clearLogs, emit]

@[simp] theorem execs_addLog (w : World) (m : Str) (s : Core) :
    execs (addLog w m s) = execs s := by
  simp only [execs, addLog_trace, List.filterMap_append, execCmd_addLogEvents, List.append_nil]

@[simp] theorem httpGets_addLog (w : World) (m : Str) (s : Core) :
    httpGets (addLog w m s) = httpGets s := by
  simp only [httpGets, addLog_trace, List.filterMap_append, url_addLogEvents, List.append_nil]

@[simp] theorem mountChecks_addLog (w : World) (m : Str) (s : Core) :
    mountChecks (addLog w m s) = mountChecks s := by
  simp only [mountChecks, addLog_trace, List.countP_append, isMountCheck_addLogEvents,
    Nat.add_zero]

@[simp] theorem statusCalls_addLog (w : World) (m : Str) (s : Core) :
    statusCalls (addLog w m s) = statusCalls s := by
  simp only [statusCalls, addLog_trace, List.filterMap_append, statusArg_addLogEvents,
    List.append_nil]

@[simp] theorem logged_addLog (w : World) (m : Str) (s : Core) :
    logged (addLog w m s) = logged s ++ [m] := by
  simp only [logged, addLog_trace, List.filterMap_append, logMsg_addLogEvents]

theorem logCalls_addLog (w : World) (m : Str) (s : Core) :
    logCalls (addLog w m s) =
      logCalls s ++ (if s.log_callback_ then [logEntry (w.clock s.tick) m] else []) := by
  simp only [logCalls, addLog_trace, List.filterMap_append, logArg_addLogEvents]

/-! ## C3: the log holds at most 100 entries -/

/-- C3: starting from an empty log, after each call of every sequence of
`addLog` and `clearLogs` calls the log holds at most 100 entries; and `addLog`
on a log of exactly 100 entries drops the oldest one, keeps the others in
order and puts the new time-stamped entry last. -/
theorem log_capacity (w : World) :
    (∀ (s0 : Core) (ops : List LogOp) (k : Nat), s0.logs_ = [] →
        (runLogOps w (ops.take k) s0).logs_.length ≤ 100) ∧
    (∀ (s : Core) (m : Str), s.logs_.length = 100 →
        (addLog w m s).logs_ = s.logs_.tail ++ [w.clock s.tick ++ ": ".toList ++ m]) := by
  constructor
  · intro s0 ops k h0
    exact runLogOps_length_le w _ s0 (by simp [h0])
  · intro s m h
    rw [addLog_logs]
    have hne : s.logs_ ≠ [] := by
      intro he
      rw [he] at h
      exact absurd h (by decide)
    rw [if_pos (by simp [h]), List.tail_append_of_ne_nil hne]
    rfl



/-- C3 at a concrete input: a log of 100 entries `old` receives `new`. -/
theorem log_capacity_witness :
    (addLog demoWorld "new".toList { logs_ := List.replicate 100 "old".toList }).logs_ =
      List.replicate 99 "old".toList ++ ["12:00:00: new".toList] :=
  (log_capacity demoWorld).2 { logs_ := List.replicate 100 "old".toList } "new".toList
    (List.length_replicate 100 _)

/-! ## Trace of the remaining primitives -/

@[simp] theorem notifyStatusChange_config (s : Core) :
    (notifyStatusChange s).config_ = s.config_ := by
  unfold notifyStatusChange
  split_ifs <;> rfl

@[simp] theorem notifyStatusChange_logs (s : Core) :
    (notifyStatusChange s).logs_ = s.logs_ := by
  unfold notifyStatusChange
  split_ifs <;> rfl

@[simp] theorem notifyStatusChange_tick (s : Core) :
    (notifyStatusChange s).tick = s.tick := by
  unfold notifyStatusChange
  split_ifs <;> rfl

theorem notifyStatusChange_trace (s : Core) :
    (notifyStatusChange s).trace =
      s.trace ++ (if s.status_callback_ then [.statusCallback s.status_] else []) := by
  unfold notifyStatusChange
  split_ifs <;> simp

/-! ## C2: `mountShare` without a VPN connection -/

/-- C2: when `vpn_connected` is false, `mountShare` hands exactly the message
`ERROR: Cannot mount share - VPN not connected` to `addLog`, sets `last_error`
to `VPN not connected` and leaves the other three status fields as they were,
runs no command, issues no probe and no mount check, and invokes the status
callback (when one is registered) exactly once, with the resulting status. -/
theorem mountShare_without_vpn (w : World) (s : Core) (h : s.status_.vpn_connected = false) :
    (mountShare w s).status_ = { s.status_ with last_error := "VPN not connected".toList } ∧
    execs (mountShare w s) = execs s ∧
    httpGets (mountShare w s) = httpGets s ∧
    mountChecks (mountShare w s) = mountChecks s ∧
    logged (mountShare w s) =
      logged s ++ ["ERROR: Cannot mount share - VPN not connected".toList] ∧
    (mountShare w s).logs_ = (addLog w
      "ERROR: Cannot mount share - VPN not connected".toList s).logs_ ∧
    statusCalls (mountShare w s) =
      statusCalls s ++ (if s.status_callback_ then [(mountShare w s).status_] else []) := by
  have hm : mountShare w s = notifyStatusChange
      { addLog w "ERROR: Cannot mount share - VPN not connected".toList s with
        status_ := { (addLog w "ERROR: Cannot mount share - VPN not connected".toList s).status_
          with last_error := "VPN not connected".toList } } := by
    unfold mountShare
    rw [if_pos (by simp [h])]
  have ht : (mountShare w s).trace =
      (addLog w "ERROR: Cannot mount share - VPN not connected".toList s).trace ++
        (if s.status_callback_ then
          [.statusCallback { s.status_ with last_error := "VPN not connected".toList }]
        else []) := by
    rw [hm, notifyStatusChange_trace]
    simp only [addLog_status_callback, addLog_status]
  have hs : (mountShare w s).status_ =
      { s.status_ with last_error := "VPN not connected".toList } := by
    rw [hm]
    simp only [notifyStatusChange_status, addLog_status]
  refine ⟨hs, ?_, ?_, ?_, ?_, ?_, ?_⟩
  · have := execs_addLog w "ERROR: Cannot mount share - VPN not connected".toList s
    unfold execs at this ⊢
    rw [ht, List.filterMap_append, this]
    split_ifs <;>
      simp [Event.execCmd, Event.url, Event.logMsg, Event.statusArg]
  · have := httpGets_addLog w "ERROR: Cannot mount share - VPN not connected".toList s
    unfold httpGets at this ⊢
    rw [ht, List.filterMap_append, this]
    split_ifs <;>
      simp [Event.execCmd, Event.url, Event.logMsg, Event.statusArg]
  · have := mountChecks_addLog w "ERROR: Cannot mount share - VPN not connected".toList s
    unfold mountChecks at this ⊢
    rw [ht, List.countP_append, this]
    split_ifs <;> simp [Event.isMountCheck]
  · have := logged_addLog w "ERROR: Cannot mount share - VPN not connected".toList s
    unfold logged at this ⊢
    rw [ht, List.filterMap_append, this]
    split_ifs <;>
      simp [Event.execCmd, Event.url, Event.logMsg, Event.statusArg]
  · rw [hm]
    simp only [notifyStatusChange_logs]
  · have := statusCalls_addLog w "ERROR: Cannot mount share - VPN not connected".toList s
    rw [hs]
    unfold statusCalls at this ⊢
    rw [ht, List.filterMap_append, this]
    split_ifs <;>
      simp [Event.execCmd, Event.url, Event.logMsg, Event.statusArg]

/-- C2 at a concrete input: `mountShare` on the engine as constructed, with a
status callback registered. -/
theorem mountShare_without_vpn_witness :
    (setStatusCallback initial).status_.vpn_connected = false ∧
    (mountShare demoWorld (setStatusCallback initial)).status_.last_error =
      "VPN not connected".toList ∧
    execs (mountShare demoWorld (setStatusCallback initial)) = [] ∧
    (statusCalls (mountShare demoWorld (setStatusCallback initial))).length = 1 :=
  have h := mountShare_without_vpn demoWorld (setStatusCallback initial) rfl
  ⟨rfl, by rw [h.1], by rw [h.2.1]; rfl, by rw [h.2.2.2.2.2.2]; rfl⟩



/-! ## Decimal numerals and `stoi` -/

theorem digitChar_toNat (d : Nat) (h : d < 10) : (digitChar d).toNat = 48 + d := by
  interval_cases d <;> rfl

theorem isdigit_digitChar (d : Nat) (h : d < 10) : isdigit (digitChar d) = true := by
  interval_cases d <;> rfl

theorem isdigit_of_mem_digitsRev (fuel : Nat) :
    ∀ n : Nat, ∀ c ∈ digitsRev fuel n, isdigit c = true := by
  induction fuel with
  | zero => intro n c hc; simp [digitsRev] at hc
  | succ f ih =>
    intro n c hc
    simp only [digitsRev, List.mem_cons] at hc
    rcases hc with rfl | hc
    · exact isdigit_digitChar _ (Nat.mod_lt _ (by decide))
    · split_ifs at hc
      · simp at hc
      · exact ih _ c hc

theorem foldr_digitsRev (fuel : Nat) :
    ∀ n : Nat, n < fuel →
      (digitsRev fuel n).foldr (fun c acc => acc * 10 + (c.toNat - 48)) 0 = n := by
  induction fuel with
  | zero => intro n h; omega
  | succ f ih =>
    intro n h
    simp only [digitsRev, List.foldr_cons]
    rw [digitChar_toNat _ (Nat.mod_lt _ (by decide))]
    split_ifs with h0
    · simp only [List.foldr_nil]
      omega
    · rw [ih (n / 10) (by omega)]
      omega

theorem digitsValue_decimal (n : Nat) : digitsValue (decimal n) = n := by
  unfold digitsValue decimal
  rw [List.foldl_reverse]
  exact foldr_digitsRev (n + 1) n (Nat.lt_succ_self n)

theorem isdigit_of_mem_decimal (n : Nat) (c : Char) (hc : c ∈ decimal n) : isdigit c = true := by
  unfold decimal at hc
  exact isdigit_of_mem_digitsRev _ n c (List.mem_reverse.mp hc)

theorem decimal_ne_nil (n : Nat) : decimal n ≠ [] := by
  unfold decimal
  simp [digitsRev]

theorem not_isspace_of_isdigit (c : Char) (h : isdigit c = true) : isspace c = false := by
  unfold isdigit at h
  simp only [Bool.and_eq_true, decide_eq_true_eq] at h
  unfold isspace
  simp only [Bool.or_eq_false_iff, decide_eq_false_iff_not]
  refine ⟨⟨⟨⟨⟨?_, ?_⟩, ?_⟩, ?_⟩, ?_⟩, ?_⟩ <;>
  · intro he
    rw [he] at h
    revert h
    decide

theorem stoi_digits (ds : Str) (hne : ds ≠ []) (hd : ∀ c ∈ ds, isdigit c = true) :
    stoi ds = if INT_MAX < (digitsValue ds : Int) then none else some (digitsValue ds : Int) := by
  obtain ⟨c, cs, rfl⟩ := List.exists_cons_of_ne_nil hne
  have hc : isdigit c = true := hd c (List.mem_cons_self _ _)
  have hsp : isspace c = false := not_isspace_of_isdigit c hc
  have hminus : c ≠ '-' := by
    intro he; rw [he] at hc; revert hc; decide
  have hplus : c ≠ '+' := by
    intro he; rw [he] at hc; revert hc; decide
  have htw : List.takeWhile isdigit (c :: cs) = c :: cs :=
    List.takeWhile_eq_self_iff.mpr hd
  have hmatch : (match c :: cs with
      | '-' :: r => (true, r)
      | '+' :: r => (false, r)
      | _ => (false, c :: cs)) = (false, c :: cs) := by
    split
    · rename_i heq; exact absurd (List.cons.inj heq).1 hminus
    · rename_i heq; exact absurd (List.cons.inj heq).1 hplus
    · rfl
  unfold stoi
  simp only [List.dropWhile_cons, hsp, Bool.false_eq_true, if_false, hmatch, htw,
    List.isEmpty_cons]
  have : ¬ ((digitsValue (c :: cs) : Int) < INT_MIN) := by
    unfold INT_MIN; omega
  simp only [this, false_or]

theorem stoi_neg_digits (ds : Str) (hne : ds ≠ []) (hd : ∀ c ∈ ds, isdigit c = true) :
    stoi ('-' :: ds) =
      if -(digitsValue ds : Int) < INT_MIN then none else some (-(digitsValue ds : Int)) := by
  have htw : List.takeWhile isdigit ds = ds := List.takeWhile_eq_self_iff.mpr hd
  have hemp : ds.isEmpty = false := by
    cases ds
    · exact absurd rfl hne
    · rfl
  unfold stoi
  have hsp : isspace '-' = false := by decide
  simp only [List.dropWhile_cons, hsp, Bool.false_eq_true, if_false, htw, hemp, if_true]
  have : ¬ (INT_MAX < -(digitsValue ds : Int)) := by
    unfold INT_MAX; omega
  simp only [this, or_false]

theorem stoi_ostream_int (i : Int) (hlo : INT_MIN ≤ i) (hhi : i ≤ INT_MAX) :
    stoi (ostream_int i) = some i := by
  unfold ostream_int
  split_ifs with hneg
  · rw [stoi_neg_digits _ (decimal_ne_nil _) (isdigit_of_mem_decimal _), digitsValue_decimal]
    have : -(i.natAbs : Int) = i := by omega
    rw [this, if_neg (by omega)]
  · rw [stoi_digits _ (decimal_ne_nil _) (isdigit_of_mem_decimal _), digitsValue_decimal]
    have : (i.natAbs : Int) = i := by omega
    rw [this, if_neg (by omega)]

/-! ## Lines of a file -/

theorem getlines_line (l rest : Str) (h : '\n' ∉ l) :
    getlines (l ++ '\n' :: rest) = l :: getlines rest := by
  induction l with
  | nil => simp [getlines]
  | cons c cs ih =>
    have hc : c ≠ '\n' := fun he => h (he ▸ List.mem_cons_self _ _)
    have hcs : '\n' ∉ cs := fun hm => h (List.mem_cons_of_mem _ hm)
    rw [List.cons_append, getlines, if_neg hc, ih hcs]

theorem newline_not_mem_ostream_int (i : Int) : '\n' ∉ ostream_int i := by
  have hd : ∀ n, '\n' ∉ decimal n := by
    intro n hm
    have := isdigit_of_mem_decimal n _ hm
    revert this
    decide
  unfold ostream_int
  split_ifs
  · intro hm
    rcases List.mem_cons.mp hm with he | hm
    · revert he; decide
    · exact hd _ hm
  · exact hd _

theorem processLine_comment (w : World) (s : Core) :
    processLine w "# HomeVPN Configuration".toList s = s := by
  simp [processLine]

theorem processLine_key_vpn_connect_cmd (w : World) (v : Str) (s : Core) :
    processLine w ("vpn_connect_cmd=".toList ++ v) s =
      { s with config_ := { s.config_ with vpn_connect_cmd := stripQuotes v } } := by
  simp [processLine, find_char, substr]

theorem processLine_key_vpn_connect (w : World) (v : Str) (s : Core) :
    processLine w ("vpn_connect=".toList ++ v) s =
      { s with config_ := { s.config_ with vpn_connect_cmd := stripQuotes v } } := by
  simp [processLine, find_char, substr]

theorem processLine_key_vpn_disconnect_cmd (w : World) (v : Str) (s : Core) :
    processLine w ("vpn_disconnect_cmd=".toList ++ v) s =
      { s with config_ := { s.config_ with vpn_disconnect_cmd := stripQuotes v } } := by
  simp [processLine, find_char, substr]

theorem processLine_key_vpn_disconnect (w : World) (v : Str) (s : Core) :
    processLine w ("vpn_disconnect=".toList ++ v) s =
      { s with config_ := { s.config_ with vpn_disconnect_cmd := stripQuotes v } } := by
  simp [processLine, find_char, substr]

theorem processLine_key_mount_cmd (w : World) (v : Str) (s : Core) :
    processLine w ("mount_cmd=".toList ++ v) s =
      { s with config_ := { s.config_ with mount_cmd := stripQuotes v } } := by
  simp [processLine, find_char, substr]

theorem processLine_key_unmount_cmd (w : World) (v : Str) (s : Core) :
    processLine w ("unmount_cmd=".toList ++ v) s =
      { s with config_ := { s.config_ with unmount_cmd := stripQuotes v } } := by
  simp [processLine, find_char, substr]

theorem processLine_key_check_ip_url (w : World) (v : Str) (s : Core) :
    processLine w ("check_ip_url=".toList ++ v) s =
      { s with config_ := { s.config_ with check_ip_url := stripQuotes v } } := by
  simp [processLine, find_char, substr]

theorem processLine_key_expected_ip (w : World) (v : Str) (s : Core) :
    processLine w ("expected_ip=".toList ++ v) s =
      { s with config_ := { s.config_ with expected_ip := stripQuotes v } } := by
  simp [processLine, find_char, substr]

theorem processLine_key_home_ip (w : World) (v : Str) (s : Core) :
    processLine w ("home_ip=".toList ++ v) s =
      { s with config_ := { s.config_ with home_ip_prefix := stripQuotes v } } := by
  simp [processLine, find_char, substr]

theorem processLine_key_home_ip_prefix (w : World) (v : Str) (s : Core) :
    processLine w ("home_ip_prefix=".toList ++ v) s =
      { s with config_ := { s.config_ with home_ip_prefix := stripQuotes v } } := by
  simp [processLine, find_char, substr]

theorem processLine_key_status_check_interval (w : World) (v : Str) (s : Core) :
    processLine w ("status_check_interval=".toList ++ v) s =
      match stoi (stripQuotes v) with
      | some i => { s with config_ := { s.config_ with status_check_interval := i } }
      | none => addLog w ("Invalid status_check_interval value: ".toList ++ stripQuotes v) s := by
  simp [processLine, find_char, substr]

theorem stripQuotes_ostream_int (i : Int) : stripQuotes (ostream_int i) = ostream_int i := by
  have hd : ∀ n, (decimal n).head? ≠ some '"' := by
    intro n h
    have hm : '"' ∈ decimal n := List.mem_of_mem_head? h
    have := isdigit_of_mem_decimal n _ hm
    revert this
    decide
  have hh : (ostream_int i).head? ≠ some '"' := by
    unfold ostream_int
    split_ifs
    · simp
    · exact hd _
  unfold stripQuotes
  rw [if_neg]
  simp only [Bool.and_eq_true, decide_eq_true_eq, not_and]
  intro h1
  exact absurd h1.2 hh

theorem configText_lines (c : Config) (h : noNewline c) :
    getlines (configText c) =
      [ "# HomeVPN Configuration".toList,
        "vpn_connect_cmd=".toList ++ c.vpn_connect_cmd,
        "vpn_disconnect_cmd=".toList ++ c.vpn_disconnect_cmd,
        "mount_cmd=".toList ++ c.mount_cmd,
        "unmount_cmd=".toList ++ c.unmount_cmd,
        "check_ip_url=".toList ++ c.check_ip_url,
        "expected_ip=".toList ++ c.expected_ip,
        "home_ip_prefix=".toList ++ c.home_ip_prefix,
        "status_check_interval=".toList ++ ostream_int c.status_check_interval ] := by
  obtain ⟨h1, h2, h3, h4, h5, h6, h7⟩ := h
  have e : configText c =
      "# HomeVPN Configuration".toList ++ '\n' ::
      (("vpn_connect_cmd=".toList ++ c.vpn_connect_cmd) ++ '\n' ::
      (("vpn_disconnect_cmd=".toList ++ c.vpn_disconnect_cmd) ++ '\n' ::
      (("mount_cmd=".toList ++ c.mount_cmd) ++ '\n' ::
      (("unmount_cmd=".toList ++ c.unmount_cmd) ++ '\n' ::
      (("check_ip_url=".toList ++ c.check_ip_url) ++ '\n' ::
      (("expected_ip=".toList ++ c.expected_ip) ++ '\n' ::
      (("home_ip_prefix=".toList ++ c.home_ip_prefix) ++ '\n' ::
      (("status_check_interval=".toList ++ ostream_int c.status_check_interval) ++ '\n' ::
        [])))))))) := by
    simp [configText]
  have hn : ∀ (k v : Str), '\n' ∉ k → '\n' ∉ v → '\n' ∉ k ++ v := by
    intro k v hk hv hm
    rcases List.mem_append.mp hm with h | h
    · exact hk h
    · exact hv h
  rw [e, getlines_line _ _ (by decide),
    getlines_line _ _ (hn _ _ (by decide) h1),
    getlines_line _ _ (hn _ _ (by decide) h2),
    getlines_line _ _ (hn _ _ (by decide) h3),
    getlines_line _ _ (hn _ _ (by decide) h4),
    getlines_line _ _ (hn _ _ (by decide) h5),
    getlines_line _ _ (hn _ _ (by decide) h6),
    getlines_line _ _ (hn _ _ (by decide) h7),
    getlines_line _ _ (hn _ _ (by decide) (newline_not_mem_ostream_int _))]
  rfl

theorem processLines_configText (w : World) (c : Config) (s : Core) (h : noNewline c)
    (hlo : INT_MIN ≤ c.status_check_interval) (hhi : c.status_check_interval ≤ INT_MAX) :
    (processLines w (getlines (configText c)) s).config_ = unquoted c := by
  rw [configText_lines c h]
  simp only [processLines, List.foldl_cons, List.foldl_nil, processLine_comment,
    processLine_key_vpn_connect_cmd, processLine_key_vpn_disconnect_cmd,
    processLine_key_mount_cmd, processLine_key_unmount_cmd, processLine_key_check_ip_url,
    processLine_key_expected_ip, processLine_key_home_ip_prefix,
    processLine_key_status_check_interval, stripQuotes_ostream_int,
    stoi_ostream_int _ hlo hhi]
  rfl

theorem saveConfig_files (w : World) (p q : Str) (s : Core)
    (hq : resolvePath w p = some q) (hw : w.writable q = true) :
    (saveConfig w p s).files q = some (configText s.config_) := by
  unfold saveConfig
  simp only [hq, hw, Bool.not_true, Bool.false_eq_true, if_false, addLog_files, if_true]

theorem loadConfig_of_file (w : World) (p q content : Str) (s : Core)
    (hq : resolvePath w p = some q) (hf : s.files q = some content) :
    loadConfig w p s =
      (true, addLog w ("Configuration loaded from: ".toList ++ q)
        (processLines w (getlines content) s)) := by
  unfold loadConfig
  simp only [hq, hf]

/-! ## C4: saving then loading the configuration -/

/-- C4 as stated fails: a configuration whose `mount_cmd` holds a newline is
saved over two lines, and loading the file back yields only the text before the
newline, which is neither the saved value nor its unquoted form. -/
theorem roundtrip_newline_counterexample :
    (loadConfig demoWorld "/cfg".toList
      (saveConfig demoWorld "/cfg".toList (setConfig newlineConfig initial))).1 = true ∧
    (loadConfig demoWorld "/cfg".toList
      (saveConfig demoWorld "/cfg".toList (setConfig newlineConfig initial))).2.config_.mount_cmd
      = "a".toList ∧
    newlineConfig.mount_cmd = "a\nb".toList ∧
    stripQuotes newlineConfig.mount_cmd = "a\nb".toList := by
  decide

/-- C4, amended: when no string field of the configuration holds a newline
(and `status_check_interval` is an `int`), `saveConfig` to a writable path
followed by `loadConfig` of the same path, on an engine holding any
configuration, returns true and leaves every string field equal to the saved
one with one pair of surrounding double quotes removed if it had one, and
`status_check_interval` equal to the saved one. -/
theorem save_then_load (w : World) (p q : Str) (s s2 : Core)
    (hq : resolvePath w p = some q) (hw : w.writable q = true)
    (hnl : noNewline s.config_)
    (hlo : INT_MIN ≤ s.config_.status_check_interval)
    (hhi : s.config_.status_check_interval ≤ INT_MAX)
    (hfiles : s2.files = (saveConfig w p s).files) :
    (loadConfig w p s2).1 = true ∧ (loadConfig w p s2).2.config_ = unquoted s.config_ := by
  have hf : s2.files q = some (configText s.config_) := by
    rw [hfiles]
    exact saveConfig_files w p q s hq hw
  rw [loadConfig_of_file w p q _ s2 hq hf]
  refine ⟨rfl, ?_⟩
  simp only [addLog_config]
  exact processLines_configText w s.config_ s2 hnl hlo hhi

/-- C4, amended, at a concrete input: the default configuration is saved, the
engine is given another configuration, and the file is loaded back. -/
theorem save_then_load_witness :
    (loadConfig demoWorld "/cfg".toList
      (setConfig newlineConfig (saveConfig demoWorld "/cfg".toList initial))).1 = true ∧
    (loadConfig demoWorld "/cfg".toList
      (setConfig newlineConfig (saveConfig demoWorld "/cfg".toList initial))).2.config_
      = unquoted initial.config_ :=
  save_then_load demoWorld "/cfg".toList "/cfg".toList initial
    (setConfig newlineConfig (saveConfig demoWorld "/cfg".toList initial))
    rfl rfl (by decide) (by decide) (by decide) rfl


/-! ## Trace of the probes and of `updateStatus` -/

theorem getExternalIP_trace (w : World) (s : Core) :
    (getExternalIP w s).2.trace =
      s.trace ++ (if s.config_.check_ip_url.isEmpty then []
        else [.httpGet s.config_.check_ip_url]) := by
  unfold getExternalIP
  split_ifs
  · simp
  · dsimp only
    split <;> rfl

theorem checkShareMount_trace (w : World) (s : Core) :
    (checkShareMount w s).2.trace = s.trace ++ [.mountCheck] := rfl

@[simp] theorem checkShareMount_fst (w : World) (s : Core) :
    (checkShareMount w s).1 = w.mountpoint s.tick := rfl

@[simp] theorem checkShareMount_status (w : World) (s : Core) :
    (checkShareMount w s).2.status_ = s.status_ := rfl

@[simp] theorem checkShareMount_config (w : World) (s : Core) :
    (checkShareMount w s).2.config_ = s.config_ := rfl

@[simp] theorem checkShareMount_tick (w : World) (s : Core) :
    (checkShareMount w s).2.tick = s.tick + 1 := rfl

@[simp] theorem checkShareMount_status_callback (w : World) (s : Core) :
    (checkShareMount w s).2.status_callback_ = s.status_callback_ := rfl

@[simp] theorem checkShareMount_log_callback (w : World) (s : Core) :
    (checkShareMount w s).2.log_callback_ = s.log_callback_ := rfl

@[simp] theorem getExternalIP_status_callback (w : World) (s : Core) :
    (getExternalIP w s).2.status_callback_ = s.status_callback_ := by
  unfold getExternalIP
  split_ifs
  · rfl
  · dsimp only
    split <;> rfl

@[simp] theorem getExternalIP_log_callback (w : World) (s : Core) :
    (getExternalIP w s).2.log_callback_ = s.log_callback_ := by
  unfold getExternalIP
  split_ifs
  · rfl
  · dsimp only
    split <;> rfl

theorem executeCommand_trace (w : World) (c : Str) (s : Core) :
    (executeCommand w c s).2.trace = s.trace ++ commandEvents w c s.tick s.log_callback_ := by
  unfold executeCommand commandEvents commandLog
  dsimp only
  simp only [emit_tick]
  split
  · simp only [addLog_trace, emit_trace, emit_log_callback, List.append_assoc,
      List.singleton_append]
  · split_ifs <;>
      first
      | (simp only [addLog_trace, emit_trace, emit_log_callback, List.append_assoc,
          List.singleton_append]; done)
      | (exfalso; simp_all)

@[simp] theorem executeCommand_status_callback (w : World) (c : Str) (s : Core) :
    (executeCommand w c s).2.status_callback_ = s.status_callback_ := by
  unfold executeCommand
  dsimp only
  split
  · simp only [addLog_status_callback, emit_status_callback]
  · split_ifs <;> simp only [addLog_status_callback, emit_status_callback]

@[simp] theorem executeCommand_log_callback (w : World) (c : Str) (s : Core) :
    (executeCommand w c s).2.log_callback_ = s.log_callback_ := by
  unfold executeCommand
  dsimp only
  split
  · simp only [addLog_log_callback, emit_log_callback]
  · split_ifs <;> simp only [addLog_log_callback, emit_log_callback]

@[simp] theorem execCmd_commandEvents (w : World) (c : Str) (t : Nat) (cb : Bool) :
    (commandEvents w c t cb).filterMap Event.execCmd = [c] := by
  unfold commandEvents
  split <;> simp [Event.execCmd]

@[simp] theorem url_commandEvents (w : World) (c : Str) (t : Nat) (cb : Bool) :
    (commandEvents w c t cb).filterMap Event.url = [] := by
  unfold commandEvents
  split <;> simp [Event.url]

@[simp] theorem isMountCheck_commandEvents (w : World) (c : Str) (t : Nat) (cb : Bool) :
    (commandEvents w c t cb).countP Event.isMountCheck = 0 := by
  unfold commandEvents
  split <;> simp [Event.isMountCheck]

@[simp] theorem statusArg_commandEvents (w : World) (c : Str) (t : Nat) (cb : Bool) :
    (commandEvents w c t cb).filterMap Event.statusArg = [] := by
  unfold commandEvents
  split <;> simp [Event.statusArg]

theorem commandLog_length_le (w : World) (c : Str) (t : Nat) :
    (commandLog w c t).length ≤ 1 := by
  unfold commandLog
  split
  · simp
  · split_ifs <;> simp

@[simp] theorem logMsg_commandEvents (w : World) (c : Str) (t : Nat) (cb : Bool) :
    (commandEvents w c t cb).filterMap Event.logMsg = commandLog w c t := by
  have hl := commandLog_length_le w c t
  unfold commandEvents
  split
  · rename_i h; simp [Event.logMsg, h]
  · rename_i m ms h
    rw [h] at hl
    have : ms = [] := by
      cases ms
      · rfl
      · simp at hl
    simp [Event.logMsg, h, this]

theorem execs_updateStatus (w : World) (s : Core) :
    execs (updateStatus w s) =
      execs s ++ (if !derivedVPN w s && mountReport w s then [s.config_.unmount_cmd] else []) := by
  unfold execs updateStatus derivedVPN mountReport probedIP
  simp only [emit_status, checkVPNConnection_eq_rule, emit_config, emit_trace,
    getExternalIP_config, getExternalIP_status, emit_tick, notifyStatusChange_trace,
    apply_ite Core.trace, addLog_trace, executeCommand_trace, getExternalIP_trace,
    checkShareMount_trace, checkShareMount_fst, checkShareMount_status,
    checkShareMount_config, List.filterMap_append, apply_ite (List.filterMap Event.execCmd),
    execCmd_addLogEvents, execCmd_commandEvents, List.append_nil, List.filterMap_nil,
    List.filterMap_cons, Event.execCmd, List.append_assoc, ite_self]
  generalize referenceRule s.config_ (getExternalIP w (emit (.lock .status_mutex_) s)).1 = v
  generalize w.mountpoint (getExternalIP w (emit (.lock .status_mutex_) s)).2.tick = m
  cases v <;> cases m <;>
    simp only [Bool.not_false, Bool.not_true, Bool.and_self, Bool.and_true, Bool.and_false,
      Bool.true_and, Bool.false_and, Bool.false_eq_true, if_false, if_true, ite_self,
      List.append_nil, List.nil_append]

theorem httpGets_updateStatus (w : World) (s : Core) :
    httpGets (updateStatus w s) =
      httpGets s ++ (if s.config_.check_ip_url.isEmpty then [] else [s.config_.check_ip_url]) := by
  unfold httpGets updateStatus
  simp only [emit_status, emit_config, emit_trace,
    getExternalIP_config, getExternalIP_status, emit_tick, notifyStatusChange_trace,
    apply_ite Core.trace, addLog_trace, executeCommand_trace, getExternalIP_trace,
    checkShareMount_trace, checkShareMount_fst, checkShareMount_status,
    checkShareMount_config, List.filterMap_append, apply_ite (List.filterMap Event.url),
    url_addLogEvents, url_commandEvents, List.append_nil, List.filterMap_nil,
    List.filterMap_cons, Event.url, List.append_assoc, ite_self, List.nil_append]

theorem mountChecks_updateStatus (w : World) (s : Core) :
    mountChecks (updateStatus w s) = mountChecks s + 1 := by
  unfold mountChecks updateStatus
  simp only [emit_status, emit_config, emit_trace,
    getExternalIP_config, getExternalIP_status, emit_tick, notifyStatusChange_trace,
    apply_ite Core.trace, addLog_trace, executeCommand_trace, getExternalIP_trace,
    checkShareMount_trace, checkShareMount_fst, checkShareMount_status,
    checkShareMount_config, List.countP_append, apply_ite (List.countP Event.isMountCheck),
    isMountCheck_addLogEvents, isMountCheck_commandEvents, List.countP_nil,
    List.countP_cons, Event.isMountCheck, List.countP_singleton, ite_self, Nat.add_zero,
    Nat.zero_add, Bool.false_eq_true, if_false, if_true]

theorem logged_updateStatus (w : World) (s : Core) :
    logged (updateStatus w s) =
      logged s
        ++ (if !derivedVPN w s && mountReport w s then
              commandLog w s.config_.unmount_cmd
                  ((getExternalIP w (emit (.lock .status_mutex_) s)).2.tick + 1)
                ++ ["VPN disconnected, unmounting share".toList]
            else [])
        ++ (if s.status_.vpn_connected != derivedVPN w s then
              [if derivedVPN w s then "VPN Connected".toList else "VPN Disconnected".toList]
            else [])
        ++ (if s.status_.share_mounted != (derivedVPN w s && mountReport w s) then
              [if derivedVPN w s && mountReport w s then "Share Mounted".toList
                else "Share Unmounted".toList]
            else []) := by
  unfold logged updateStatus derivedVPN mountReport probedIP
  simp only [emit_status, checkVPNConnection_eq_rule, emit_config, emit_trace,
    getExternalIP_config, getExternalIP_status, emit_tick, notifyStatusChange_trace,
    apply_ite Core.trace, apply_ite Core.status_, addLog_status, executeCommand_status,
    addLog_trace, executeCommand_trace, getExternalIP_trace,
    checkShareMount_trace, checkShareMount_fst, checkShareMount_status, checkShareMount_tick,
    checkShareMount_config, List.filterMap_append, apply_ite (List.filterMap Event.logMsg),
    logMsg_addLogEvents, logMsg_commandEvents, List.append_nil, List.filterMap_nil,
    List.filterMap_cons, Event.logMsg, List.append_assoc, ite_self, List.nil_append]
  generalize referenceRule s.config_ (getExternalIP w (emit (.lock .status_mutex_) s)).1 = v
  generalize w.mountpoint (getExternalIP w (emit (.lock .status_mutex_) s)).2.tick = m
  cases v <;> cases m <;> cases s.status_.vpn_connected <;> cases s.status_.share_mounted <;>
    simp only [Bool.not_false, Bool.not_true, Bool.and_self, Bool.and_true, Bool.and_false,
      Bool.true_and, Bool.false_and, Bool.false_eq_true, if_false, if_true, ite_self,
      List.append_nil, List.nil_append, bne_self_eq_false, Bool.true_bne, Bool.false_bne,
      Bool.bne_true, Bool.bne_false, List.append_assoc]

theorem statusCalls_updateStatus (w : World) (s : Core) :
    statusCalls (updateStatus w s) =
      statusCalls s ++ (if s.status_callback_ then [(updateStatus w s).status_] else []) := by
  rw [updateStatus_status]
  unfold statusCalls updateStatus derivedVPN mountReport probedIP
  simp only [emit_status, checkVPNConnection_eq_rule, emit_config, emit_trace,
    getExternalIP_config, getExternalIP_status, emit_tick, notifyStatusChange_trace,
    apply_ite Core.trace, apply_ite Core.status_, apply_ite Core.status_callback_,
    addLog_status, executeCommand_status, addLog_status_callback,
    executeCommand_status_callback, getExternalIP_status_callback,
    checkShareMount_status_callback, emit_status_callback,
    addLog_trace, executeCommand_trace, getExternalIP_trace,
    checkShareMount_trace, checkShareMount_fst, checkShareMount_status, checkShareMount_tick,
    checkShareMount_config, List.filterMap_append, apply_ite (List.filterMap Event.statusArg),
    statusArg_addLogEvents, statusArg_commandEvents, List.append_nil, List.filterMap_nil,
    List.filterMap_cons, Event.statusArg, List.append_assoc, ite_self, List.nil_append]
  generalize referenceRule s.config_ (getExternalIP w (emit (.lock .status_mutex_) s)).1 = v
  generalize w.mountpoint (getExternalIP w (emit (.lock .status_mutex_) s)).2.tick = m
  cases v <;> cases m <;> cases s.status_.vpn_connected <;> cases s.status_.share_mounted <;>
    cases s.status_callback_ <;>
    simp only [Bool.not_false, Bool.not_true, Bool.and_self, Bool.and_true, Bool.and_false,
      Bool.true_and, Bool.false_and, Bool.false_eq_true, if_false, if_true, ite_self,
      List.append_nil, List.nil_append, bne_self_eq_false, Bool.true_bne, Bool.false_bne,
      Bool.bne_true, Bool.bne_false, List.append_assoc, List.filterMap_nil,
      List.filterMap_cons, Event.statusArg]

/-! ## C5: the rule deriving `vpn_connected` -/

/-- C5: `checkVPNConnection` computes the reference rule (substring of the
address against `expected_ip` when set, else against `home_ip_prefix` when set,
else address non-empty and longer than 5), and that is the `vpn_connected`
`updateStatus` stores for the address it stores; `192.168.1.42` with prefix
`192.168.1.` and no `expected_ip` gives true, the empty address with both unset
gives false. -/
theorem vpn_connected_rule (w : World) :
    (∀ s : Core, checkVPNConnection s = referenceRule s.config_ s.status_.current_ip) ∧
    (∀ s : Core, (updateStatus w s).status_.vpn_connected =
        referenceRule s.config_ (updateStatus w s).status_.current_ip) ∧
    (∀ s : Core, s.config_.expected_ip = [] → s.config_.home_ip_prefix = "192.168.1.".toList →
        s.status_.current_ip = "192.168.1.42".toList → checkVPNConnection s = true) ∧
    (∀ s : Core, s.config_.expected_ip = [] → s.config_.home_ip_prefix = [] →
        s.status_.current_ip = [] → checkVPNConnection s = false) := by
  refine ⟨checkVPNConnection_eq_rule, ?_, ?_, ?_⟩
  · intro s
    rw [updateStatus_status]
    simp only [derivedVPN, checkVPNConnection_eq_rule]
  · intro s h1 h2 h3
    rw [checkVPNConnection_eq_rule, h3]
    unfold referenceRule
    rw [h1, h2]
    decide
  · intro s h1 h2 h3
    rw [checkVPNConnection_eq_rule, h3]
    unfold referenceRule
    rw [h1, h2]
    decide

/-! ## C6: the consistency correction -/

/-- C6: when `updateStatus` derives `vpn_connected = false` and the mount check
reports the share mounted, it runs `unmount_cmd` exactly once and nothing else,
leaves `share_mounted = false`, and logs `VPN disconnected, unmounting share`,
followed by `VPN Disconnected` when the VPN was connected before and by
`Share Unmounted` when the share was mounted before; in every other case it
runs no command and `share_mounted` is what the mount check reported. -/
theorem consistency_correction (w : World) (s : Core) :
    ((updateStatus w s).status_.vpn_connected = false → mountReport w s = true →
      execs (updateStatus w s) = execs s ++ [s.config_.unmount_cmd] ∧
      (updateStatus w s).status_.share_mounted = false ∧
      logged (updateStatus w s) =
        logged s ++ correctionCommandLog w s
          ++ ["VPN disconnected, unmounting share".toList]
          ++ (if s.status_.vpn_connected then ["VPN Disconnected".toList] else [])
          ++ (if s.status_.share_mounted then ["Share Unmounted".toList] else [])) ∧
    (((updateStatus w s).status_.vpn_connected = true ∨ mountReport w s = false) →
      execs (updateStatus w s) = execs s ∧
      (updateStatus w s).status_.share_mounted = mountReport w s) := by
  rw [execs_updateStatus, logged_updateStatus, updateStatus_status]
  unfold correctionCommandLog
  dsimp only
  constructor
  · intro hv hm
    rw [hv, hm]
    cases s.status_.vpn_connected <;> cases s.status_.share_mounted <;> simp
  · rintro (hv | hm)
    · rw [hv]; simp
    · rw [hm]; simp

/-- C6 at a concrete input: the probe fails and the share is mounted while the
status showed a connected VPN and a mounted share. -/
theorem consistency_correction_witness :
    execs (updateStatus offlineWorld connectedMounted) = ["echo 'Unmount'".toList] ∧
    (updateStatus offlineWorld connectedMounted).status_.share_mounted = false ∧
    logged (updateStatus offlineWorld connectedMounted) =
      ["VPN disconnected, unmounting share".toList, "VPN Disconnected".toList,
        "Share Unmounted".toList] :=
  (consistency_correction offlineWorld connectedMounted).1 (by decide) (by decide)

/-! ## C8: notifications -/

theorem notify_unlock_trace (t : Core) (ht : t.status_callback_ = true) :
    (emit (.unlock .status_mutex_) (notifyStatusChange t)).trace =
      t.trace ++ [.statusCallback (emit (.unlock .status_mutex_) (notifyStatusChange t)).status_,
        .unlock .status_mutex_] := by
  simp [notifyStatusChange, ht, emit]

theorem updateStatus_eq_notify (w : World) (s : Core) :
    ∃ t : Core, updateStatus w s = emit (.unlock .status_mutex_) (notifyStatusChange t) ∧
      t.status_callback_ = s.status_callback_ := by
  unfold updateStatus
  dsimp only
  refine ⟨_, rfl, ?_⟩
  simp only [apply_ite Core.status_callback_, addLog_status_callback,
    executeCommand_status_callback, checkShareMount_status_callback,
    getExternalIP_status_callback, emit_status_callback, ite_self]

theorem addLog_logs_getLast (w : World) (m : Str) (s : Core) :
    (addLog w m s).logs_.getLast? = some (logEntry (w.clock s.tick) m) := by
  rw [addLog_logs]
  split_ifs with h
  · have hne : s.logs_ ≠ [] := by
      intro he
      rw [he] at h
      simp at h
    rw [List.tail_append_of_ne_nil hne]
    simp
  · simp

/-- C8: with both callbacks registered, `updateStatus` invokes the status
callback exactly once, as its last action before releasing the status lock and
with the status it leaves, whether or not that status differs from the prior
one; and `addLog` invokes the log callback exactly once, with the time-stamped
entry it put last in the log. -/
theorem callbacks_fire_once (w : World) (s : Core)
    (hs : s.status_callback_ = true) (hl : s.log_callback_ = true) :
    statusCalls (updateStatus w s) = statusCalls s ++ [(updateStatus w s).status_] ∧
    (∃ before, (updateStatus w s).trace =
      before ++ [.statusCallback (updateStatus w s).status_, .unlock .status_mutex_]) ∧
    (∀ m : Str,
      logCalls (addLog w m s) = logCalls s ++ [w.clock s.tick ++ ": ".toList ++ m] ∧
      (addLog w m s).logs_.getLast? = some (w.clock s.tick ++ ": ".toList ++ m)) := by
  refine ⟨?_, ?_, ?_⟩
  · rw [statusCalls_updateStatus, hs]
    rfl
  · obtain ⟨t, ht, hcb⟩ := updateStatus_eq_notify w s
    rw [ht]
    exact ⟨t.trace, notify_unlock_trace t (hcb.trans hs)⟩
  · intro m
    constructor
    · rw [logCalls_addLog, hl]
      rfl
    · exact addLog_logs_getLast w m s

/-- C8 at a concrete input: the engine as constructed with both callbacks
registered. -/
theorem callbacks_fire_once_witness :
    statusCalls (updateStatus demoWorld (setLogCallback (setStatusCallback initial))) =
      [(updateStatus demoWorld (setLogCallback (setStatusCallback initial))).status_] ∧
    logCalls (addLog demoWorld "hello".toList (setLogCallback (setStatusCallback initial))) =
      ["12:00:00: hello".toList] :=
  have h := callbacks_fire_once demoWorld (setLogCallback (setStatusCallback initial)) rfl rfl
  ⟨h.1, (h.2.2 "hello".toList).1⟩

/-! ## Lines of the configuration file -/

theorem find_char_eq_none (c : Char) (l : Str) : find_char c l = none ↔ c ∉ l := by
  induction l with
  | nil => simp [find_char]
  | cons x xs ih =>
    unfold find_char
    by_cases hx : x = c
    · simp [hx]
    · have hx2 : ¬ c = x := fun h => hx h.symm
      simp [hx, hx2, ih]

theorem find_char_eq_some (c : Char) (l : Str) (n : Nat) (h : find_char c l = some n) :
    l = l.take n ++ c :: l.drop (n + 1) ∧ l.takeWhile (fun x => x != c) = l.take n := by
  induction l generalizing n with
  | nil => simp [find_char] at h
  | cons x xs ih =>
    unfold find_char at h
    by_cases hx : x = c
    · rw [if_pos hx] at h
      cases h
      simp [hx]
    · rw [if_neg hx] at h
      cases hf : find_char c xs with
      | none => rw [hf] at h; simp at h
      | some k =>
        rw [hf] at h
        simp only [Option.map_some', Option.some.injEq] at h
        subst h
        obtain ⟨h1, h2⟩ := ih k hf
        constructor
        · simp only [List.take_succ_cons, List.drop_succ_cons, List.cons_append]
          rw [← h1]
        · simp only [List.take_succ_cons]
          rw [List.takeWhile_cons, if_pos (by simpa using hx), h2]

theorem processLine_ignorable (w : World) (line : Str) (s : Core) (h : ignorable line) :
    processLine w line s = s := by
  unfold processLine
  by_cases h0 : (line.isEmpty || decide (line.head? = some '#')) = true
  · rw [if_pos h0]
  · rw [if_neg h0]
    cases hf : find_char '=' line with
    | none => rfl
    | some n =>
      have hkey : substr line 0 n = lineKey line := by
        unfold substr lineKey
        rw [(find_char_eq_some _ _ _ hf).2]
        rfl
      have hk : lineKey line ∉ recognisedKeys := by
        rcases h with h | h | h | h
        · exact absurd (by simp [h]) h0
        · exact absurd (by simp [h]) h0
        · exact absurd ((find_char_eq_none _ _).mpr h) (by simp [hf])
        · exact h
      simp only [recognisedKeys, List.mem_cons, List.mem_singleton, not_or, List.mem_nil_iff,
        not_false_eq_true, and_true] at hk
      obtain ⟨k1, k2, k3, k4, k5, k6, k7, k8, k9, k10, k11⟩ := hk
      simp only [hkey, k1, k2, k3, k4, k5, k6, k7, k8, k9, k10, k11, decide_False,
        Bool.or_self, Bool.false_eq_true, if_false]

theorem processLines_cons (w : World) (l : Str) (ls : List Str) (s : Core) :
    processLines w (l :: ls) s = processLines w ls (processLine w l s) := rfl

theorem processLines_append (w : World) (xs ys : List Str) (s : Core) :
    processLines w (xs ++ ys) s = processLines w ys (processLines w xs s) := by
  unfold processLines
  rw [List.foldl_append]

theorem processLines_filter (w : World) (lines : List Str) :
    ∀ s : Core,
      processLines w (lines.filter fun l => decide (¬ ignorable l)) s = processLines w lines s := by
  induction lines with
  | nil => intro s; rfl
  | cons l ls ih =>
    intro s
    by_cases hl : ignorable l
    · rw [List.filter_cons_of_neg (by simpa using hl), processLines_cons,
        processLine_ignorable w l s hl, ih]
    · rw [List.filter_cons_of_pos (by simpa using hl), processLines_cons, processLines_cons, ih]

theorem processLines_all_ignorable (w : World) (lines : List Str) :
    ∀ s : Core, (∀ l ∈ lines, ignorable l) → processLines w lines s = s := by
  induction lines with
  | nil => intro s _; rfl
  | cons l ls ih =>
    intro s h
    rw [processLines_cons, processLine_ignorable w l s (h l (List.mem_cons_self _ _))]
    exact ih s fun x hx => h x (List.mem_cons_of_mem _ hx)

theorem processLine_config_congr (w w2 : World) (line : Str) (s s2 : Core)
    (h : s.config_ = s2.config_) :
    (processLine w line s).config_ = (processLine w2 line s2).config_ := by
  unfold processLine
  by_cases h0 : (line.isEmpty || decide (line.head? = some '#')) = true
  · rw [if_pos h0, if_pos h0]
    exact h
  · rw [if_neg h0, if_neg h0]
    cases hf : find_char '=' line with
    | none => exact h
    | some n =>
      dsimp only
      split_ifs
      any_goals simp only [h]
      cases stoi (stripQuotes (List.drop (n + 1) line)) <;> simp only [h, addLog_config]

theorem processLines_config_congr (w w2 : World) (lines : List Str) :
    ∀ s s2 : Core, s.config_ = s2.config_ →
      (processLines w lines s).config_ = (processLines w2 lines s2).config_ := by
  induction lines with
  | nil => intro s s2 h; exact h
  | cons l ls ih =>
    intro s s2 h
    rw [processLines_cons, processLines_cons]
    exact ih _ _ (processLine_config_congr w w2 l s s2 h)

theorem newline_not_mem_of_mem_getlines (content : Str) :
    ∀ l ∈ getlines content, '\n' ∉ l := by
  induction content with
  | nil => intro l hl; simp [getlines] at hl
  | cons c cs ih =>
    intro l hl
    unfold getlines at hl
    by_cases hc : c = '\n'
    · rw [if_pos hc] at hl
      rcases List.mem_cons.mp hl with h | h
      · rw [h]; simp
      · exact ih l h
    · rw [if_neg hc] at hl
      cases hg : getlines cs with
      | nil =>
        rw [hg] at hl
        simp only [List.mem_singleton] at hl
        rw [hl]
        simpa using fun h => hc h.symm
      | cons x xs =>
        rw [hg] at hl ih
        rcases List.mem_cons.mp hl with h | h
        · rw [h]
          intro hm
          rcases List.mem_cons.mp hm with h2 | h2
          · exact hc h2.symm
          · exact ih x (List.mem_cons_self _ _) h2
        · exact ih l (List.mem_cons_of_mem _ h)

theorem getlines_unlines (ls : List Str) (h : ∀ l ∈ ls, '\n' ∉ l) :
    getlines (unlines ls) = ls := by
  induction ls with
  | nil => rfl
  | cons l ls ih =>
    unfold unlines
    rw [getlines_line _ _ (h l (List.mem_cons_self _ _)),
      ih fun x hx => h x (List.mem_cons_of_mem _ hx)]

/-! ## C10: lines without effect -/

/-- C10: a line that is empty, starts with `#`, contains no `=`, or has an
unrecognised key leaves the engine as it is; `loadConfig` of an openable file
returns true and yields the same configuration as `loadConfig` of the file
with those lines removed; and a file made only of such lines leaves the
configuration unchanged. -/
theorem ignorable_lines_have_no_effect (w : World) :
    (∀ (line : Str) (s : Core), ignorable line → processLine w line s = s) ∧
    (∀ (p q content : Str) (s s2 : Core), resolvePath w p = some q →
        s.files q = some content →
        s2.files q = some (unlines ((getlines content).filter fun l => decide (¬ ignorable l))) →
        s2.config_ = s.config_ →
        (loadConfig w p s).1 = true ∧ (loadConfig w p s2).1 = true ∧
        (loadConfig w p s2).2.config_ = (loadConfig w p s).2.config_) ∧
    (∀ (p q content : Str) (s : Core), resolvePath w p = some q →
        s.files q = some content → (∀ l ∈ getlines content, ignorable l) →
        (loadConfig w p s).1 = true ∧ (loadConfig w p s).2.config_ = s.config_) := by
  refine ⟨fun line s h => processLine_ignorable w line s h, ?_, ?_⟩
  · intro p q content s s2 hq hf hf2 hc
    rw [loadConfig_of_file w p q _ s hq hf, loadConfig_of_file w p q _ s2 hq hf2]
    refine ⟨rfl, rfl, ?_⟩
    simp only [addLog_config]
    rw [getlines_unlines _ fun l hl =>
      newline_not_mem_of_mem_getlines content l (List.mem_of_mem_filter hl)]
    rw [processLines_filter]
    exact processLines_config_congr w w _ s2 s hc
  · intro p q content s hq hf hall
    rw [loadConfig_of_file w p q _ s hq hf]
    refine ⟨rfl, ?_⟩
    simp only [addLog_config]
    rw [processLines_all_ignorable w _ s hall]

/-- C10 at a concrete input: a file with a comment, an empty line, a line
without `=`, a line with an unknown key and one `mount_cmd` line. -/
theorem ignorable_lines_have_no_effect_witness :
    (loadConfig demoWorld "/cfg".toList
      (withFile "/cfg".toList "mount_cmd=x\n".toList initial)).2.config_ =
    (loadConfig demoWorld "/cfg".toList
      (withFile "/cfg".toList "# c\n\nfoo\nbar=1\nmount_cmd=x\n".toList initial)).2.config_ :=
  ((ignorable_lines_have_no_effect demoWorld).2.1 "/cfg".toList "/cfg".toList
    "# c\n\nfoo\nbar=1\nmount_cmd=x\n".toList
    (withFile "/cfg".toList "# c\n\nfoo\nbar=1\nmount_cmd=x\n".toList initial)
    (withFile "/cfg".toList "mount_cmd=x\n".toList initial) rfl rfl (by decide) rfl).2.2

/-! ## C7: a `status_check_interval` value that `stoi` rejects -/

/-- C7 as stated fails: `12abc` is not a well-formed integer, yet `loadConfig`
of a file holding `status_check_interval=12abc` sets the interval to 12 and
logs nothing but the final notice. -/
theorem malformed_interval_counterexample :
    wellFormedInteger "12abc".toList = false ∧
    initial.config_.status_check_interval = 30 ∧
    (loadConfig demoWorld "/cfg".toList
      (withFile "/cfg".toList "status_check_interval=12abc\n".toList initial)).1 = true ∧
    (loadConfig demoWorld "/cfg".toList
      (withFile "/cfg".toList "status_check_interval=12abc\n".toList
        initial)).2.config_.status_check_interval = 12 ∧
    logged (loadConfig demoWorld "/cfg".toList
      (withFile "/cfg".toList "status_check_interval=12abc\n".toList initial)).2 =
      ["Configuration loaded from: /cfg".toList] := by
  decide

/-- C7, amended: when `std::stoi` rejects the value of a
`status_check_interval` line (after the removal of surrounding quotes), that
line only logs `Invalid status_check_interval value: <value>`: the
configuration stays as it was before the line, the other lines of the file are
applied as if the line were absent, and `loadConfig` of an openable file
returns true. -/
theorem rejected_interval_is_logged (w : World) (v : Str)
    (h : stoi (stripQuotes v) = none) :
    (∀ s : Core,
      processLine w ("status_check_interval=".toList ++ v) s =
        addLog w ("Invalid status_check_interval value: ".toList ++ stripQuotes v) s ∧
      (processLine w ("status_check_interval=".toList ++ v) s).config_ = s.config_ ∧
      logged (processLine w ("status_check_interval=".toList ++ v) s) =
        logged s ++ ["Invalid status_check_interval value: ".toList ++ stripQuotes v]) ∧
    (∀ (before after : List Str) (s : Core),
      (processLines w (before ++ ("status_check_interval=".toList ++ v) :: after) s).config_ =
        (processLines w (before ++ after) s).config_) ∧
    (∀ (p q content : Str) (s : Core), resolvePath w p = some q → s.files q = some content →
      (loadConfig w p s).1 = true ∧
      (loadConfig w p s).2.config_ = (processLines w (getlines content) s).config_) := by
  have hline : ∀ s : Core,
      processLine w ("status_check_interval=".toList ++ v) s =
        addLog w ("Invalid status_check_interval value: ".toList ++ stripQuotes v) s := by
    intro s
    rw [processLine_key_status_check_interval, h]
  refine ⟨fun s => ⟨hline s, ?_, ?_⟩, ?_, ?_⟩
  · rw [hline, addLog_config]
  · rw [hline, logged_addLog]
  · intro before after s
    rw [processLines_append, processLines_append, processLines_cons]
    apply processLines_config_congr
    rw [hline, addLog_config]
  · intro p q content s hq hf
    rw [loadConfig_of_file w p q _ s hq hf]
    exact ⟨rfl, addLog_config _ _ _⟩

/-- C7, amended, at a concrete input: the value `abc` written in quotes. -/
theorem rejected_interval_is_logged_witness :
    stoi (stripQuotes "\"abc\"".toList) = none ∧
    (processLine demoWorld ("status_check_interval=".toList ++ "\"abc\"".toList)
      initial).config_ = initial.config_ ∧
    logged (processLine demoWorld ("status_check_interval=".toList ++ "\"abc\"".toList)
      initial) = ["Invalid status_check_interval value: abc".toList] :=
  have h := (rejected_interval_is_logged demoWorld "\"abc\"".toList (by decide)).1 initial
  ⟨by decide, h.2.1, h.2.2⟩

/-! ## C9: the sign of `status_check_interval` -/

/-- C9 as stated fails: from the default interval 30, `loadConfig` of a file
holding `status_check_interval=0` leaves 0, and of one holding
`status_check_interval=-5` leaves -5. -/
theorem interval_not_positive_counterexample :
    1 ≤ initial.config_.status_check_interval ∧
    (loadConfig demoWorld "/cfg".toList
      (withFile "/cfg".toList "status_check_interval=0\n".toList
        initial)).2.config_.status_check_interval = 0 ∧
    (loadConfig demoWorld "/cfg".toList
      (withFile "/cfg".toList "status_check_interval=-5\n".toList
        initial)).2.config_.status_check_interval = -5 := by
  decide

theorem processLine_interval_other_key (w : World) (line : Str) (s : Core) (n : Nat)
    (hf : find_char '=' line = some n)
    (hk : substr line 0 n ≠ "status_check_interval".toList) :
    (processLine w line s).config_.status_check_interval = s.config_.status_check_interval := by
  unfold processLine
  by_cases h0 : (line.isEmpty || decide (line.head? = some '#')) = true
  · rw [if_pos h0]
  · rw [if_neg h0]
    simp only [hf]
    split_ifs <;> rfl

theorem processLine_interval (w : World) (line : Str) (s : Core) :
    (processLine w line s).config_.status_check_interval = s.config_.status_check_interval ∨
    ∃ v i, line = "status_check_interval=".toList ++ v ∧ stoi (stripQuotes v) = some i ∧
      (processLine w line s).config_.status_check_interval = i := by
  cases hf : find_char '=' line with
  | none =>
    left
    rw [processLine_ignorable w line s (Or.inr (Or.inr (Or.inl ((find_char_eq_none _ _).mp hf))))]
  | some n =>
    by_cases hk : substr line 0 n = "status_check_interval".toList
    · have hl := (find_char_eq_some _ _ _ hf).1
      have hk2 : List.take n line = "status_check_interval".toList := hk
      rw [hk2] at hl
      have hline : line = "status_check_interval=".toList ++ List.drop (n + 1) line := by
        rw [List.append_cons] at hl
        exact hl
      cases hs : stoi (stripQuotes (List.drop (n + 1) line)) with
      | none =>
        left
        rw [hline, processLine_key_status_check_interval, hs, addLog_config]
      | some i =>
        right
        refine ⟨List.drop (n + 1) line, i, hline, hs, ?_⟩
        rw [hline, processLine_key_status_check_interval, hs]
    · exact Or.inl (processLine_interval_other_key w line s n hf hk)

theorem processLines_interval_pos (w : World) (lines : List Str) :
    ∀ s : Core, 1 ≤ s.config_.status_check_interval →
      (∀ v i, "status_check_interval=".toList ++ v ∈ lines → stoi (stripQuotes v) = some i →
        1 ≤ i) →
      1 ≤ (processLines w lines s).config_.status_check_interval := by
  induction lines with
  | nil => intro s h _; exact h
  | cons l ls ih =>
    intro s hpos hl
    rw [processLines_cons]
    refine ih _ ?_ fun v i hm hs => hl v i (List.mem_cons_of_mem _ hm) hs
    rcases processLine_interval w l s with h | ⟨v, i, hv, hs, hi⟩
    · rw [h]; exact hpos
    · rw [hi]
      exact hl v i (by rw [hv]; exact List.mem_cons_self _ _) hs

/-- C9, amended: `loadConfig` assigns to `status_check_interval` whatever
`std::stoi` returns for the value of a `status_check_interval` line, whatever
its sign; if the interval is at least 1 before `loadConfig` and no such line of
the file has a value that `std::stoi` parses to an integer below 1, the
interval is at least 1 after `loadConfig`. -/
theorem interval_stays_positive (w : World) (p : Str) (s : Core)
    (hpos : 1 ≤ s.config_.status_check_interval)
    (hlines : ∀ q content v i, resolvePath w p = some q → s.files q = some content →
      "status_check_interval=".toList ++ v ∈ getlines content →
      stoi (stripQuotes v) = some i → 1 ≤ i) :
    1 ≤ (loadConfig w p s).2.config_.status_check_interval ∧
    (∀ (v : Str) (i : Int) (s2 : Core), stoi (stripQuotes v) = some i →
      (processLine w ("status_check_interval=".toList ++ v)
        s2).config_.status_check_interval = i) := by
  constructor
  · unfold loadConfig
    cases hq : resolvePath w p with
    | none => exact hpos
    | some q =>
      dsimp only
      cases hf : s.files q with
      | none =>
        dsimp only
        rw [addLog_config]
        exact hpos
      | some content =>
        dsimp only
        rw [addLog_config]
        exact processLines_interval_pos w _ s hpos fun v i hm hs => hlines q content v i hq hf hm hs
  · intro v i s2 hs
    rw [processLine_key_status_check_interval, hs]

/-- C9, amended, at a concrete input: a file setting the interval to 50. -/
theorem interval_stays_positive_witness :
    1 ≤ (loadConfig demoWorld "/cfg".toList
      (withFile "/cfg".toList "status_check_interval=50\n".toList
        initial)).2.config_.status_check_interval :=
  (interval_stays_positive demoWorld "/cfg".toList
    (withFile "/cfg".toList "status_check_interval=50\n".toList initial) (by decide)
    (by
      intro q content v i hq hf hm hs
      have hq2 : q = "/cfg".toList := by
        have : resolvePath demoWorld "/cfg".toList = some "/cfg".toList := rfl
        rw [this] at hq
        exact (Option.some.inj hq).symm
      subst hq2
      have hc : content = "status_check_interval=50\n".toList := by
        have : (withFile "/cfg".toList "status_check_interval=50\n".toList initial).files
            "/cfg".toList = some "status_check_interval=50\n".toList := rfl
        rw [this] at hf
        exact (Option.some.inj hf).symm
      subst hc
      have hg : getlines "status_check_interval=50\n".toList =
          ["status_check_interval=50".toList] := by decide
      rw [hg, List.mem_singleton] at hm
      have hv : v = "50".toList := List.append_cancel_left hm
      subst hv
      have : stoi (stripQuotes "50".toList) = some 50 := by decide
      rw [this] at hs
      rw [← Option.some.inj hs]
      decide)).1

/-! ## C12: when `last_error` is cleared -/

/-- C12: `updateStatus` leaves `last_error` empty when `vpn_connected` was
false before the call and is true after it, and leaves `last_error` exactly as
it was in every other case; so `last_error` is empty afterwards if and only if
the VPN has just become connected or `last_error` was empty already. -/
theorem last_error_cleared_on_reconnect (w : World) (s : Core) :
    ((s.status_.vpn_connected = false ∧ (updateStatus w s).status_.vpn_connected = true) →
      (updateStatus w s).status_.last_error = []) ∧
    (¬ (s.status_.vpn_connected = false ∧ (updateStatus w s).status_.vpn_connected = true) →
      (updateStatus w s).status_.last_error = s.status_.last_error) ∧
    ((updateStatus w s).status_.last_error = [] ↔
      ((s.status_.vpn_connected = false ∧ (updateStatus w s).status_.vpn_connected = true) ∨
        s.status_.last_error = [])) := by
  rw [updateStatus_status]
  dsimp only
  cases derivedVPN w s <;> cases s.status_.vpn_connected <;> simp

/-- C12 at concrete inputs: `last_error` is cleared when the probe shows the
home address, and kept when the probe fails. -/
theorem last_error_cleared_on_reconnect_witness :
    (updateStatus demoWorld rejected).status_.last_error = [] ∧
    (updateStatus offlineWorld rejected).status_.last_error = "VPN not connected".toList :=
  ⟨(last_error_cleared_on_reconnect demoWorld rejected).1 (by decide),
    (last_error_cleared_on_reconnect offlineWorld rejected).2.1 (by decide)⟩

/-! ## C15: an empty probe URL -/

theorem referenceRule_nil (c : Config) : referenceRule c [] = false := by
  unfold referenceRule
  split_ifs with h1 h2
  · simpa using h1
  · simpa using h2
  · simp

theorem probedIP_of_empty_url (w : World) (s : Core) (h : s.config_.check_ip_url = []) :
    probedIP w s = [] := by
  unfold probedIP getExternalIP
  rw [emit_config, h]
  rfl

/-- C15: when `check_ip_url` is empty, whatever `expected_ip`, `home_ip_prefix`,
the prior status and the mount check, `updateStatus` issues no HTTP request,
leaves `current_ip` empty, `vpn_connected` false and `share_mounted` false, and
runs the unmount command exactly when the mount check reported the share
mounted. -/
theorem empty_url_means_disconnected (w : World) (s : Core)
    (h : s.config_.check_ip_url = []) :
    httpGets (updateStatus w s) = httpGets s ∧
    (updateStatus w s).status_.current_ip = [] ∧
    (updateStatus w s).status_.vpn_connected = false ∧
    (updateStatus w s).status_.share_mounted = false ∧
    execs (updateStatus w s) =
      execs s ++ (if mountReport w s then [s.config_.unmount_cmd] else []) := by
  have hip : probedIP w s = [] := probedIP_of_empty_url w s h
  have hv : derivedVPN w s = false := by
    unfold derivedVPN
    rw [checkVPNConnection_eq_rule, hip]
    exact referenceRule_nil _
  rw [httpGets_updateStatus, execs_updateStatus, updateStatus_status, hv, hip, h]
  simp

/-- C15 at a concrete input: no probe URL, the share reported mounted. -/
theorem empty_url_means_disconnected_witness :
    httpGets (updateStatus demoWorld rejectedNoUrl) = [] ∧
    (updateStatus demoWorld rejectedNoUrl).status_.vpn_connected = false ∧
    (updateStatus demoWorld rejectedNoUrl).status_.share_mounted = false ∧
    execs (updateStatus demoWorld rejectedNoUrl) = ["echo 'Unmount'".toList] :=
  have h := empty_url_means_disconnected demoWorld rejectedNoUrl rfl
  ⟨h.1, h.2.2.1, h.2.2.2.1, h.2.2.2.2⟩

/-! ## C13: transition entries -/

theorem head_of_mem_commandLog (w : World) (c : Str) (t : Nat) (x : Str)
    (hx : x ∈ commandLog w c t) : x.head? = some 'E' ∨ x.head? = some 'C' := by
  unfold commandLog at hx
  split at hx
  · rw [List.mem_singleton] at hx
    rw [hx]
    exact Or.inl rfl
  · split_ifs at hx
    all_goals first
      | (rw [List.mem_singleton] at hx; rw [hx]; exact Or.inr rfl)
      | simp at hx

theorem not_mem_commandLog_of_head (w : World) (c : Str) (t : Nat) (x : Str)
    (hx : x.head? = some 'V' ∨ x.head? = some 'S') : x ∉ commandLog w c t := by
  intro hm
  rcases head_of_mem_commandLog w c t x hm with h | h <;> rcases hx with h2 | h2 <;>
    · rw [h] at h2
      revert h2
      decide

theorem loggedBy_updateStatus (w : World) (s : Core) :
    loggedBy s (updateStatus w s) =
      (if !derivedVPN w s && mountReport w s then
          correctionCommandLog w s ++ ["VPN disconnected, unmounting share".toList]
        else [])
      ++ (if s.status_.vpn_connected != derivedVPN w s then
            [if derivedVPN w s then "VPN Connected".toList else "VPN Disconnected".toList]
          else [])
      ++ (if s.status_.share_mounted != (derivedVPN w s && mountReport w s) then
            [if derivedVPN w s && mountReport w s then "Share Mounted".toList
              else "Share Unmounted".toList]
          else []) := by
  unfold loggedBy correctionCommandLog
  rw [logged_updateStatus, List.append_assoc, List.append_assoc, List.drop_left]
  simp only [List.append_assoc]

/-- C13: among the messages `updateStatus` hands to `addLog`, `VPN Connected`
(resp. `VPN Disconnected`) occurs if and only if `vpn_connected` went from false
to true (resp. true to false), and `Share Mounted` (resp. `Share Unmounted`) if
and only if the final `share_mounted` went from false to true (resp. true to
false); a call leaving both flags as they were logs none of the four. -/
theorem transition_logging_edge_triggered (w : World) (s : Core) :
    ("VPN Connected".toList ∈ loggedBy s (updateStatus w s) ↔
      (s.status_.vpn_connected = false ∧ (updateStatus w s).status_.vpn_connected = true)) ∧
    ("VPN Disconnected".toList ∈ loggedBy s (updateStatus w s) ↔
      (s.status_.vpn_connected = true ∧ (updateStatus w s).status_.vpn_connected = false)) ∧
    ("Share Mounted".toList ∈ loggedBy s (updateStatus w s) ↔
      (s.status_.share_mounted = false ∧ (updateStatus w s).status_.share_mounted = true)) ∧
    ("Share Unmounted".toList ∈ loggedBy s (updateStatus w s) ↔
      (s.status_.share_mounted = true ∧ (updateStatus w s).status_.share_mounted = false)) ∧
    ((updateStatus w s).status_.vpn_connected = s.status_.vpn_connected →
      (updateStatus w s).status_.share_mounted = s.status_.share_mounted →
      "VPN Connected".toList ∉ loggedBy s (updateStatus w s) ∧
      "VPN Disconnected".toList ∉ loggedBy s (updateStatus w s) ∧
      "Share Mounted".toList ∉ loggedBy s (updateStatus w s) ∧
      "Share Unmounted".toList ∉ loggedBy s (updateStatus w s)) := by
  have c1 := not_mem_commandLog_of_head w s.config_.unmount_cmd
    ((getExternalIP w (emit (.lock .status_mutex_) s)).2.tick + 1) "VPN Connected".toList
    (Or.inl rfl)
  have c2 := not_mem_commandLog_of_head w s.config_.unmount_cmd
    ((getExternalIP w (emit (.lock .status_mutex_) s)).2.tick + 1) "VPN Disconnected".toList
    (Or.inl rfl)
  have c3 := not_mem_commandLog_of_head w s.config_.unmount_cmd
    ((getExternalIP w (emit (.lock .status_mutex_) s)).2.tick + 1) "Share Mounted".toList
    (Or.inr rfl)
  have c4 := not_mem_commandLog_of_head w s.config_.unmount_cmd
    ((getExternalIP w (emit (.lock .status_mutex_) s)).2.tick + 1) "Share Unmounted".toList
    (Or.inr rfl)
  rw [loggedBy_updateStatus, updateStatus_status]
  unfold correctionCommandLog
  dsimp only
  generalize commandLog w s.config_.unmount_cmd
    ((getExternalIP w (emit (.lock .status_mutex_) s)).2.tick + 1) = output at c1 c2 c3 c4 ⊢
  simp only [String.toList] at c1 c2 c3 c4
  cases derivedVPN w s <;> cases mountReport w s <;> cases s.status_.vpn_connected <;>
    cases s.status_.share_mounted <;>
    simp [c1, c2, c3, c4]

/-- C13 at a concrete input: the first `updateStatus` of an engine that finds
the home address and a mounted share. -/
theorem transition_logging_edge_triggered_witness :
    "VPN Connected".toList ∈ loggedBy initial (updateStatus demoWorld initial) ∧
    "VPN Disconnected".toList ∉ loggedBy initial (updateStatus demoWorld initial) :=
  ⟨(transition_logging_edge_triggered demoWorld initial).1.mpr (by decide),
    fun h => absurd ((transition_logging_edge_triggered demoWorld initial).2.1.mp h)
      (by decide)⟩

/-! ## C14: lines with a string-valued key -/

theorem stripQuotes_eq_specUnquote (v : Str) : stripQuotes v = specUnquote v := by
  unfold stripQuotes specUnquote substr
  by_cases h : 2 ≤ v.length ∧ v.head? = some '"' ∧ v.getLast? = some '"'
  · rw [if_pos h, if_pos (by simpa [and_assoc] using h), List.dropLast_eq_take, List.drop_one,
      List.length_tail]
    rfl
  · rw [if_neg h, if_neg (by simpa [and_assoc] using h)]

theorem line_eq_key_value (line : Str) (h : '=' ∈ line) :
    line = lineKey line ++ '=' :: lineValue line := by
  unfold lineKey lineValue
  induction line with
  | nil => simp at h
  | cons c cs ih =>
    by_cases hc : c = '='
    · subst hc
      simp
    · have hm : '=' ∈ cs := by
        rcases List.mem_cons.mp h with h1 | h1
        · exact absurd h1.symm hc
        · exact h1
      have e1 : (c != '=') = true := by simpa using hc
      rw [List.takeWhile_cons, List.dropWhile_cons, if_pos e1, if_pos e1, List.cons_append,
        ← ih hm]

theorem processLine_of_key (w : World) (line k : Str) (s : Core) (hm : '=' ∈ line)
    (hk : lineKey line = k) :
    processLine w line s = processLine w (k ++ '=' :: lineValue line) s := by
  rw [← hk, ← line_eq_key_value line hm]

theorem processLine_string_key (w : World) (line : Str) (f : ConfigField) (s : Core)
    (hm : '=' ∈ line) (hf : keyField (lineKey line) = some f) :
    processLine w line s =
      { s with config_ := f.set (specUnquote (lineValue line)) s.config_ } := by
  rw [← stripQuotes_eq_specUnquote]
  unfold keyField at hf
  split_ifs at hf with h1 h2 h3 h4 h5 h6 h7
  all_goals cases hf
  · rcases h1 with hk | hk
    · rw [processLine_of_key w line _ s hm hk]
      exact processLine_key_vpn_connect_cmd w _ s
    · rw [processLine_of_key w line _ s hm hk]
      exact processLine_key_vpn_connect w _ s
  · rcases h2 with hk | hk
    · rw [processLine_of_key w line _ s hm hk]
      exact processLine_key_vpn_disconnect_cmd w _ s
    · rw [processLine_of_key w line _ s hm hk]
      exact processLine_key_vpn_disconnect w _ s
  · rw [processLine_of_key w line _ s hm h3]
    exact processLine_key_mount_cmd w _ s
  · rw [processLine_of_key w line _ s hm h4]
    exact processLine_key_unmount_cmd w _ s
  · rw [processLine_of_key w line _ s hm h5]
    exact processLine_key_check_ip_url w _ s
  · rw [processLine_of_key w line _ s hm h6]
    exact processLine_key_expected_ip w _ s
  · rcases h7 with hk | hk
    · rw [processLine_of_key w line _ s hm hk]
      exact processLine_key_home_ip_prefix w _ s
    · rw [processLine_of_key w line _ s hm hk]
      exact processLine_key_home_ip w _ s

theorem keyField_eq_none (k : Str) (h : keyField k = none) :
    k = "status_check_interval".toList ∨ k ∉ recognisedKeys := by
  unfold keyField at h
  split_ifs at h with h1 h2 h3 h4 h5 h6 h7
  by_cases hs : k = "status_check_interval".toList
  · exact Or.inl hs
  · right
    rw [not_or] at h1 h2 h7
    simp only [recognisedKeys, List.mem_cons, List.mem_singleton, List.mem_nil_iff, or_false,
      not_or]
    exact ⟨h1.1, h1.2, h2.1, h2.2, h3, h4, h5, h6, h7.2, h7.1, hs⟩

theorem ConfigField.get_set (f : ConfigField) (v : Str) (c : Config) :
    f.get (f.set v c) = v := by
  cases f <;> rfl

theorem ConfigField.get_set_of_ne (f g : ConfigField) (v : Str) (c : Config) (h : g ≠ f) :
    f.get (g.set v c) = f.get c := by
  cases f <;> cases g <;> first | rfl | exact absurd rfl h

theorem processLine_get_frame (w : World) (l : Str) (f : ConfigField) (s : Core)
    (h : ¬ ('=' ∈ l ∧ keyField (lineKey l) = some f)) :
    f.get (processLine w l s).config_ = f.get s.config_ := by
  by_cases hm : '=' ∈ l
  · cases hk : keyField (lineKey l) with
    | some g =>
      have hne : g ≠ f := fun e => h ⟨hm, by rw [hk, e]⟩
      rw [processLine_string_key w l g s hm hk]
      exact ConfigField.get_set_of_ne f g _ _ hne
    | none =>
      rcases keyField_eq_none _ hk with e | e
      · rw [processLine_of_key w l _ s hm e]
        have hp : processLine w ("status_check_interval".toList ++ '=' :: lineValue l) s = _ :=
          processLine_key_status_check_interval w (lineValue l) s
        rw [hp]
        cases stoi (stripQuotes (lineValue l)) with
        | none => simp only [addLog_config]
        | some i => cases f <;> rfl
      · rw [processLine_ignorable w l s (Or.inr (Or.inr (Or.inr e)))]
  · rw [processLine_ignorable w l s (Or.inr (Or.inr (Or.inl hm)))]

theorem processLines_get_frame (w : World) (f : ConfigField) (ls : List Str) :
    ∀ s : Core, (∀ l ∈ ls, ¬ ('=' ∈ l ∧ keyField (lineKey l) = some f)) →
      f.get (processLines w ls s).config_ = f.get s.config_ := by
  induction ls with
  | nil => intro s _; rfl
  | cons l ls ih =>
    intro s h
    rw [processLines_cons, ih _ fun x hx => h x (List.mem_cons_of_mem _ hx)]
    exact processLine_get_frame w l f s (h l (List.mem_cons_self _ _))

/-- C14: a line whose text before the first `=` is a string-valued key sets
the field the key names to the text after the first `=` (further `=` included),
with its first and last character removed when that text has at least two
characters and begins and ends with a double quote, and verbatim otherwise (a
lone quote or an unbalanced quote is kept); the aliases `vpn_connect`,
`vpn_disconnect` and `home_ip` act as `vpn_connect_cmd`, `vpn_disconnect_cmd`
and `home_ip_prefix`; and after `loadConfig` a field holds the value of the
last line of the file that names it. -/
theorem string_key_sets_unquoted_value (w : World) :
    (∀ (line : Str) (f : ConfigField) (s : Core), '=' ∈ line →
        keyField (lineKey line) = some f →
        processLine w line s =
          { s with config_ := f.set (specUnquote (lineValue line)) s.config_ }) ∧
    (∀ (v : Str) (s : Core),
        processLine w ("vpn_connect=".toList ++ v) s =
          processLine w ("vpn_connect_cmd=".toList ++ v) s ∧
        processLine w ("vpn_disconnect=".toList ++ v) s =
          processLine w ("vpn_disconnect_cmd=".toList ++ v) s ∧
        processLine w ("home_ip=".toList ++ v) s =
          processLine w ("home_ip_prefix=".toList ++ v) s) ∧
    (specUnquote "\"".toList = "\"".toList ∧ specUnquote "\"ab".toList = "\"ab".toList ∧
      specUnquote "\"ab\"".toList = "ab".toList ∧
      lineValue "mount_cmd=a=b".toList = "a=b".toList) ∧
    (∀ (p q content : Str) (before after : List Str) (line : Str) (f : ConfigField) (s : Core),
        resolvePath w p = some q → s.files q = some content →
        getlines content = before ++ line :: after →
        '=' ∈ line → keyField (lineKey line) = some f →
        (∀ l ∈ after, ¬ ('=' ∈ l ∧ keyField (lineKey l) = some f)) →
        (loadConfig w p s).1 = true ∧
        f.get (loadConfig w p s).2.config_ = specUnquote (lineValue line)) := by
  refine ⟨fun line f s hm hf => processLine_string_key w line f s hm hf, ?_, ?_, ?_⟩
  · intro v s
    rw [processLine_key_vpn_connect, processLine_key_vpn_connect_cmd,
      processLine_key_vpn_disconnect, processLine_key_vpn_disconnect_cmd,
      processLine_key_home_ip, processLine_key_home_ip_prefix]
    exact ⟨rfl, rfl, rfl⟩
  · decide
  · intro p q content before after line f s hq hfile hlines hm hf hafter
    rw [loadConfig_of_file w p q content s hq hfile]
    refine ⟨rfl, ?_⟩
    simp only [addLog_config]
    rw [hlines, processLines_append, processLines_cons, processLines_get_frame w f after _ hafter,
      processLine_string_key w line f _ hm hf]
    exact ConfigField.get_set f _ _

/-- C14 at a concrete input: two `mount_cmd` lines, the second one quoted and
holding a further `=`, followed by a line for another field. -/
theorem string_key_sets_unquoted_value_witness :
    (loadConfig demoWorld "/cfg".toList
      (withFile "/cfg".toList "mount_cmd=a\nmount_cmd=\"b=c\"\nexpected_ip=x\n".toList
        initial)).2.config_.mount_cmd = "b=c".toList :=
  ((string_key_sets_unquoted_value demoWorld).2.2.2 "/cfg".toList "/cfg".toList
    "mount_cmd=a\nmount_cmd=\"b=c\"\nexpected_ip=x\n".toList
    ["mount_cmd=a".toList] ["expected_ip=x".toList] "mount_cmd=\"b=c\"".toList
    ConfigField.mount_cmd
    (withFile "/cfg".toList "mount_cmd=a\nmount_cmd=\"b=c\"\nexpected_ip=x\n".toList initial)
    rfl rfl (by decide) (by decide) (by decide) (by decide)).2

/-! ## C11: the status lock and the blocking actions -/

end HomeVPN
